import Mathlib

/-!
Verification development for the RawMessageUtil entity-selector parser.

The repository contains two variants of the selector parser class
`EntitySelector`: `src/EntitySelectorParser.ts` (called "variant A" below)
and `src/unnamed/part_000` (called "variant B" below).  Both variants share
the argument tokenizer, the `key=value` splitting, and most of the argument
dispatch; they differ in the recognized key set (variant B additionally
handles `rx`, `rxm`, `ry`, `rym`), in the `hasitem` value parser, and in the
structure of `getEntities`.

JavaScript numbers are modelled as `Option ℚ` where `none` stands for `NaN`
(infinite values are only reachable through the literal input `"Infinity"`,
which no claim exercises; the model collapses them to `none`).  Host
capabilities (the dimension entity pool, the scoreboard, the inventory
matcher `_checkSingleEntityHasItem`, and the JSON.parse builtin) are passed
in explicitly as parameters, mirroring the Entity/World Capability Interface
boundary of the specification.
-/

set_option maxRecDepth 8000

/-! ## JavaScript string primitives -/

/-- Whitespace characters recognized by JS `trim` (ASCII subset actually used). -/
def isWS (c : Char) : Bool :=
  c = ' ' ∨ c = '\t' ∨ c = '\n' ∨ c = '\r' ∨ c = '\x0b' ∨ c = '\x0c'

/-- Model of `String.prototype.trim`. -/
def jsTrim (s : String) : String :=
  ⟨((s.data.dropWhile isWS).reverse.dropWhile isWS).reverse⟩

/-- Split a character list at every occurrence of `c`; model of JS
`String.prototype.split` with a one-character separator. -/
def splitOnChar (c : Char) : List Char → List (List Char)
  | [] => [[]]
  | a :: rest =>
    match splitOnChar c rest with
    | [] => [[]]
    | h :: t => if a = c then [] :: h :: t else (a :: h) :: t

/-- Model of `arg.split("=")`. -/
def splitEq (s : String) : List String :=
  (splitOnChar '=' s.data).map (fun l => (⟨l⟩ : String))

/-- Model of `Array.prototype.join(sep)` for string arrays. -/
def joinWith (sep : String) : List String → String
  | [] => ""
  | [a] => a
  | a :: rest => a ++ sep ++ joinWith sep rest

/-- Model of `value.replace(/^"|"$/g, "")`: one leading and one trailing
double quote are removed. -/
def stripQuotes (s : String) : String :=
  let l := s.data
  let l1 := match l with
    | '"' :: r => r
    | _ => l
  let l2 := if l1.getLast? = some '"' then l1.dropLast else l1
  ⟨l2⟩

/-- Model of `l` starting with pattern `p` (second argument). -/
def listStarts : List Char → List Char → Bool
  | _, [] => true
  | [], _ :: _ => false
  | c :: cs, p :: ps => if c = p then listStarts cs ps else false

/-- Model of `String.prototype.startsWith`. -/
def strStarts (s p : String) : Bool := listStarts s.data p.data

/-- Model of `String.prototype.endsWith`. -/
def strEnds (s p : String) : Bool := listStarts s.data.reverse p.data.reverse

/-- Model of `String.prototype.substring(n)` (drop the first `n` characters). -/
def strDrop (s : String) (n : Nat) : String := ⟨s.data.drop n⟩

/-- Model of `s.substring(1, s.length - 1)`: the content between the first
and last character. -/
def strInner (s : String) : String := ⟨(s.data.drop 1).dropLast⟩

/-- Model of `String.prototype.toLowerCase` (ASCII). -/
def strLower (s : String) : String := ⟨s.data.map Char.toLower⟩

/-- Whether `sub` occurs as a contiguous run inside `l`; model of
`String.prototype.includes`. -/
def listHasInfix (sub : List Char) : List Char → Bool
  | [] => sub = []
  | a :: rest => listStarts (a :: rest) sub || listHasInfix sub rest

/-- Model of `value.replace(/"/g, '\\"')`. -/
def escapeQuotes (s : String) : String :=
  ⟨s.data.foldr (fun c acc => if c = '"' then '\\' :: '"' :: acc else c :: acc) []⟩

/-! ## JavaScript number parsing -/

/-- Numeric value of a run of decimal digits. -/
def digitsToNat (l : List Char) : Nat :=
  l.foldl (fun n c => n * 10 + (c.toNat - '0'.toNat)) 0

/-- Model of `parseInt(s, 10)`: skip whitespace, optional sign, then the
longest run of leading decimal digits; `none` models `NaN`. -/
def jsParseInt (s : String) : Option Int :=
  let l := s.data.dropWhile isWS
  let sign : Int := match l with
    | '-' :: _ => -1
    | _ => 1
  let l1 := match l with
    | '-' :: r => r
    | '+' :: r => r
    | _ => l
  let ds := l1.takeWhile Char.isDigit
  if ds = [] then none else some (sign * (digitsToNat ds : Int))

/-- Exponent part of a float literal: optional sign then digits; a malformed
exponent counts as absent (JS `parseFloat("1e")` is `1`). -/
def parseExpPart (l : List Char) : Int :=
  let sign : Int := match l with
    | '-' :: _ => -1
    | _ => 1
  let l1 := match l with
    | '-' :: r => r
    | '+' :: r => r
    | _ => l
  let ds := l1.takeWhile Char.isDigit
  if ds = [] then 0 else sign * (digitsToNat ds : Int)

/-- Model of `parseFloat(s)`: longest numeric prefix after whitespace and an
optional sign; `none` models `NaN` (and the unexercised `Infinity` corner).
The value `sign * (intDigits.fracDigits) * 10 ^ exponent` is assembled with
`mkRat` over integer arithmetic so that it evaluates by kernel reduction. -/
def jsParseFloat (s : String) : Option ℚ :=
  let l := s.data.dropWhile isWS
  let sgn : Int := match l with
    | '-' :: _ => -1
    | _ => 1
  let l1 := match l with
    | '-' :: r => r
    | '+' :: r => r
    | _ => l
  let intDs := l1.takeWhile Char.isDigit
  let l2 := l1.drop intDs.length
  let fracDs := match l2 with
    | '.' :: r => r.takeWhile Char.isDigit
    | _ => []
  let l3 := match l2 with
    | '.' :: r => r.dropWhile Char.isDigit
    | _ => l2
  if intDs = [] ∧ fracDs = [] then none
  else
    let den : Nat := Nat.pow 10 fracDs.length
    let mantNum : Int := sgn * ((digitsToNat intDs : Int) * (den : Int) + (digitsToNat fracDs : Int))
    let ex : Int := match l3 with
      | 'e' :: r => parseExpPart r
      | 'E' :: r => parseExpPart r
      | _ => 0
    if ex ≥ 0 then some (mkRat (mantNum * ((Nat.pow 10 ex.toNat : Nat) : Int)) den)
    else some (mkRat mantNum (den * Nat.pow 10 (-ex).toNat))

/-- Hexadecimal digit test. -/
def isHexDigitCh (c : Char) : Bool :=
  c.isDigit ∨ ('a' ≤ c ∧ c ≤ 'f') ∨ ('A' ≤ c ∧ c ≤ 'F')

/-- Exponent suffix of a full decimal literal (used by the `Number(v)`
finiteness test); the whole remainder must be a well-formed exponent. -/
def expOk : List Char → Bool
  | [] => true
  | 'e' :: r =>
    let r2 := match r with
      | '+' :: t => t
      | '-' :: t => t
      | _ => r
    decide (r2 ≠ []) && r2.all Char.isDigit
  | 'E' :: r =>
    let r2 := match r with
      | '+' :: t => t
      | '-' :: t => t
      | _ => r
    decide (r2 ≠ []) && r2.all Char.isDigit
  | _ => false

/-- Full-string decimal literal with optional sign, fraction and exponent. -/
def decimalLit (l : List Char) : Bool :=
  let l1 := match l with
    | '+' :: r => r
    | '-' :: r => r
    | _ => l
  let ds := l1.takeWhile Char.isDigit
  let rest := l1.drop ds.length
  match rest with
  | '.' :: r =>
    let fs := r.takeWhile Char.isDigit
    let rest2 := r.drop fs.length
    (decide (ds ≠ []) || decide (fs ≠ [])) && expOk rest2
  | _ => decide (ds ≠ []) && expOk rest

/-- Radix-prefixed literal (`0x…`, `0o…`, `0b…`) accepted by `Number`. -/
def radixLit (l : List Char) : Bool :=
  match l with
  | '0' :: 'x' :: r => decide (r ≠ []) && r.all isHexDigitCh
  | '0' :: 'X' :: r => decide (r ≠ []) && r.all isHexDigitCh
  | '0' :: 'o' :: r => decide (r ≠ []) && r.all (fun c => '0' ≤ c ∧ c ≤ '7')
  | '0' :: 'O' :: r => decide (r ≠ []) && r.all (fun c => '0' ≤ c ∧ c ≤ '7')
  | '0' :: 'b' :: r => decide (r ≠ []) && r.all (fun c => c = '0' ∨ c = '1')
  | '0' :: 'B' :: r => decide (r ≠ []) && r.all (fun c => c = '0' ∨ c = '1')
  | _ => false

/-- Model of `isFinite(Number(s))`: the empty (trimmed) string converts to 0;
otherwise the whole string must be a finite numeric literal. -/
def jsNumberIsFinite (s : String) : Bool :=
  let l := (jsTrim s).data
  if l = [] then true else decimalLit l || radixLit l

/-! ## Shared range grammar (`(-?\d+)?\.\.(-?\d+)?` with `parseInt` fallback) -/

/-- Optional signed digit run, the content allowed for each capture group of
the range regular expression. -/
def optSignedDigits (l : List Char) : Bool :=
  match l with
  | [] => true
  | '-' :: r => decide (r ≠ []) && r.all Char.isDigit
  | _ => l.all Char.isDigit

/-- Anchored match of `s` against `(-?\d+)?\.\.(-?\d+)?`, returning the two
capture groups.  The split point is forced to the first `.` of the string,
which is where any successful backtracking-free match must put it. -/
def rangeMatchSplit (s : String) : Option (List Char × List Char) :=
  let l := s.data
  let a := l.takeWhile (fun c => c ≠ '.')
  let rest := l.drop a.length
  match rest with
  | '.' :: '.' :: b =>
    if optSignedDigits a ∧ optSignedDigits b ∧ b.all (fun c => c ≠ '.') then some (a, b)
    else none
  | _ => none

/-- Integer value of a signed digit run. -/
def signedToInt (l : List Char) : Int :=
  match l with
  | '-' :: r => -(digitsToNat r : Int)
  | _ => (digitsToNat l : Int)

/-- Net effect of the range-parsing pattern that appears at the `scores`,
item `quantity` and item `slot` sites of `_parseArguments`: try the range
regular expression, then fall back to `parseInt` guarded by `isNaN`. -/
def rangeMinMax (s : String) : Option Int × Option Int :=
  match rangeMatchSplit s with
  | some (a, b) =>
    ((if a = [] then none else some (signedToInt a)),
     (if b = [] then none else some (signedToInt b)))
  | none =>
    match jsParseInt s with
    | some n => (some n, some n)
    | none => (none, none)

/-- Bare signed integer literal, the claim language's notion of "a bare
integer string" (full-string match of `-?\d+`). -/
def bareIntLit (s : String) : Bool :=
  match s.data with
  | [] => false
  | '-' :: r => decide (r ≠ []) && r.all Char.isDigit
  | l => l.all Char.isDigit

/-! ## Query data model -/

/-- JS number: `none` models `NaN`. -/
abbrev JSNum := Option ℚ

/-- JS number known to be integral when not `NaN` (results of `parseInt`). -/
abbrev JSInt := Option Int

/-- Mutable `{x, y, z}` object as used for `location` and `volume`. -/
structure JVec where
  x : JSNum := some 0
  y : JSNum := some 0
  z : JSNum := some 0
deriving DecidableEq, Repr

/-- Coordinate axis selector for the `x`/`y`/`z` and `dx`/`dy`/`dz` cases. -/
inductive Axis
  | X | Y | Z
deriving DecidableEq, Repr

/-- Key string of an axis. -/
def axisKey : Axis → String
  | .X => "x"
  | .Y => "y"
  | .Z => "z"

/-- Assignment `vec[axis] := val`. -/
def setJVecAxis (v : JVec) (ax : Axis) (val : JSNum) : JVec :=
  match ax with
  | .X => { v with x := val }
  | .Y => { v with y := val }
  | .Z => { v with z := val }

/-- One `scores` condition (`ScoreFilter` of variant A,
`EntityQueryScoreOptions` of variant B). -/
structure ScoreFilter where
  objective : String
  minScore : Option Int := none
  maxScore : Option Int := none
deriving DecidableEq, Repr

/-- A `{min?, max?}` range of JS numbers (item quantity / slot ranges). -/
structure NumRange where
  min : Option ℚ := none
  max : Option ℚ := none
deriving DecidableEq, Repr

/-- One parsed `hasitem` condition. -/
structure HasItemFilter where
  item : Option String := none
  quantity : Option NumRange := none
  data : Option JSInt := none
  location : Option String := none
  slot : Option NumRange := none
deriving DecidableEq, Repr

/-- The `EntityQueryOptions` record built by `_parseArguments`; `none`
everywhere models an absent (undefined) property.  Rotation fields are only
ever written by variant B. -/
structure QueryOpts where
  type : Option String := none
  excludeTypes : Option (List String) := none
  name : Option String := none
  tags : Option (List String) := none
  excludeTags : Option (List String) := none
  families : Option (List String) := none
  excludeFamilies : Option (List String) := none
  gameMode : Option String := none
  maxLevel : Option JSInt := none
  minLevel : Option JSInt := none
  location : Option JVec := none
  volume : Option JVec := none
  maxDistance : Option JSInt := none
  minDistance : Option JSInt := none
  closest : Option Int := none
  farthest : Option Int := none
  maxVerticalRotation : Option JSNum := none
  minVerticalRotation : Option JSNum := none
  maxHorizontalRotation : Option JSNum := none
  minHorizontalRotation : Option JSNum := none
  scoreOptions : Option (List ScoreFilter) := none
deriving DecidableEq, Repr

/-- Kinds of `console.warn` emissions of the parser (the console is a side
channel, not part of the selector state). -/
inductive Warn
  | invalidArg
  | unsupportedKey (k : String)
  | hasitemBadFormat
  | hasitemParseFail
  | noExecutor
deriving DecidableEq, Repr

/-- Parse-time state of an `EntitySelector` instance: the query options plus
the separate `hasItemFilters` array. -/
structure SelState where
  query : QueryOpts := {}
  hasItemFilters : List HasItemFilter := []
deriving DecidableEq, Repr

/-! ## Argument tokenizer (`_parseArguments`, identical in both variants) -/

/-- Loop of the tokenizer: builds the current token, tracks `inBraces` and
`inSquareBrackets`, splits on commas when both counters are zero.  Direct
embedding of `EntitySelectorParser.ts` lines 100–118 = `part_000` lines
73–90. -/
def parseArgTokensLoop : List Char → List Char → Int → Int → List String → List String
  | [], cur, _, _, acc => acc ++ [jsTrim ⟨cur⟩]
  | ch :: rest, cur, br, sq, acc =>
    let cur' := cur ++ [ch]
    if ch = '{' then parseArgTokensLoop rest cur' (br + 1) sq acc
    else if ch = '}' then parseArgTokensLoop rest cur' (br - 1) sq acc
    else if ch = '[' then parseArgTokensLoop rest cur' br (sq + 1) acc
    else if ch = ']' then parseArgTokensLoop rest cur' br (sq - 1) acc
    else if ch = ',' ∧ br = 0 ∧ sq = 0 then
      parseArgTokensLoop rest [] br sq (acc ++ [jsTrim ⟨cur'.dropLast⟩])
    else parseArgTokensLoop rest cur' br sq acc

/-- The token list produced by the tokenizer for one argument string. -/
def parseArgTokens (s : String) : List String :=
  parseArgTokensLoop s.data [] 0 0 []

/-- Running brace depth of a character prefix (spec-side notion). -/
def braceDepth (l : List Char) : Int :=
  l.foldl (fun d c => if c = '{' then d + 1 else if c = '}' then d - 1 else d) 0

/-- Running bracket depth of a character prefix (spec-side notion). -/
def bracketDepth (l : List Char) : Int :=
  l.foldl (fun d c => if c = '[' then d + 1 else if c = ']' then d - 1 else d) 0

/-- Specification-side splitter, written from the spec's words: split the
string exactly at the commas at which the running brace depth and running
bracket depth of the preceding prefix are both zero.  `pre` is the prefix
already consumed. -/
def splitTopLevel : List Char → List Char → List Char → List (List Char)
  | _, [], cur => [cur]
  | pre, ch :: rest, cur =>
    if ch = ',' ∧ braceDepth pre = 0 ∧ bracketDepth pre = 0 then
      cur :: splitTopLevel (pre ++ [ch]) rest []
    else splitTopLevel (pre ++ [ch]) rest (cur ++ [ch])

/-- Spec-side token list: top-level comma pieces, each trimmed. -/
def specTokens (s : String) : List String :=
  (splitTopLevel [] s.data []).map (fun t => jsTrim ⟨t⟩)

/-- Spec-side argument list: tokens that are nonempty after trimming. -/
def specArgs (s : String) : List String :=
  (specTokens s).filter (fun t => t ≠ "")

/-! ## Key/value splitting of one argument token -/

/-- First element of `arg.split("=")` (the key). -/
def argKey (arg : String) : String := (splitEq arg).headD ""

/-- Remaining elements of `arg.split("=")` re-joined with `"="` and trimmed
(the value; everything after the first `=` is preserved). -/
def argValue (arg : String) : String := jsTrim (joinWith "=" (splitEq arg).tail)

/-! ## JSON values and the abstract JSON.parse builtin -/

/-- JSON value as produced by the host `JSON.parse` builtin. -/
inductive JVal where
  | null
  | bool (b : Bool)
  | num (q : ℚ)
  | str (s : String)
  | arr (elems : List JVal)
  | obj (members : List (String × JVal))

/-- Property access `j.k` on a non-null JS value: only objects have
properties; duplicate keys resolve to the last binding. -/
def jvalLookup (j : JVal) (k : String) : Option JVal :=
  match j with
  | .obj members => (members.reverse.find? (fun p => p.1 == k)).map (fun p => p.2)
  | _ => none

mutual
/-- Model of JS `String(v)` on a JSON value.  Non-integral numbers are
rendered with the Lean rational notation rather than JS decimal notation;
that corner is reachable only through an abstract `JSON.parse` result being
coerced to a string and is exercised by no claim. -/
def jvalToString : JVal → String
  | .null => "null"
  | .bool true => "true"
  | .bool false => "false"
  | .num q => if q.den = 1 then toString q.num else toString q
  | .str s => s
  | .arr l => jvalJoin l
  | .obj _ => "[object Object]"

/-- Model of `Array.prototype.toString` (join with commas; null elements
render as empty strings). -/
def jvalJoin : List JVal → String
  | [] => ""
  | [JVal.null] => ""
  | [x] => jvalToString x
  | JVal.null :: rest => "" ++ "," ++ jvalJoin rest
  | x :: rest => jvalToString x ++ "," ++ jvalJoin rest
end

/-! ## Variant B `hasitem` sub-parser (`part_000` lines 216–346) -/

/-- Assignment splitter of `parseObjectString` (`part_000` lines 218–237):
split on commas at brace depth zero; an opening brace bumps the depth and is
dropped from the current pair, a closing brace is kept; only the final piece
is guarded to be nonempty. -/
def splitAssignPairs : List Char → List Char → Int → List String → List String
  | [], cur, _, acc => if jsTrim ⟨cur⟩ ≠ "" then acc ++ [jsTrim ⟨cur⟩] else acc
  | c :: rest, cur, depth, acc =>
    if c = '{' then splitAssignPairs rest cur (depth + 1) acc
    else if c = '}' then splitAssignPairs rest (cur ++ [c]) (depth - 1) acc
    else if c = ',' ∧ depth = 0 then splitAssignPairs rest [] depth (acc ++ [jsTrim ⟨cur⟩])
    else splitAssignPairs rest (cur ++ [c]) depth acc

/-- Normalization of one `key=value` assignment into a JSON member string
(`part_000` lines 239–255). -/
def processAssign (assign : String) : String :=
  let parts := splitEq assign
  let key := jsTrim (parts.headD "")
  let value := jsTrim (joinWith "=" parts.tail)
  let quotedKey := "\"" ++ key ++ "\""
  let processedValue :=
    if (jsParseFloat value).isSome ∧ jsNumberIsFinite value = true ∧
        listHasInfix ['.', '.'] value.data = false then value
    else if strLower value = "true" ∨ strLower value = "false" then strLower value
    else if strStarts value "\"" ∧ strEnds value "\"" then value
    else "\"" ++ escapeQuotes value ++ "\""
  quotedKey ++ ":" ++ processedValue

/-- Model of `parseObjectString` (`part_000` lines 217–257). -/
def parseObjectStringB (objStr : String) : String :=
  let pairs := (splitAssignPairs objStr.data [] 0 []).map processAssign
  "\x7b" ++ joinWith "," pairs ++ "\x7d"

/-- Index ranges of the array-member splitter of the `hasitem` `[` branch
(`part_000` lines 267–277): split at brace-balance-zero commas, except a
comma sitting exactly at the current start index. -/
def arrRanges : List Char → Nat → Nat → Int → List (Nat × Nat) → List (Nat × Nat)
  | [], i, start, _, acc => acc ++ [(start, i)]
  | c :: rest, i, start, bal, acc =>
    if c = '{' then arrRanges rest (i + 1) start (bal + 1) acc
    else if c = '}' then arrRanges rest (i + 1) start (bal - 1) acc
    else if c = ',' ∧ bal = 0 ∧ start < i then
      arrRanges rest (i + 1) (i + 1) bal (acc ++ [(start, i)])
    else arrRanges rest (i + 1) start bal acc

/-- Model of `s.substring(a, b)` for `a ≤ b`. -/
def substrRange (s : String) (a b : Nat) : String := ⟨(s.data.take b).drop a⟩

/-- Object strings extracted from the content of a `hasitem` array value. -/
def splitArrayContentB (content : String) : List String :=
  (arrRanges content.data 0 0 0 []).map (fun r => substrRange content r.1 r.2)

/-- Structural phase of the variant B `hasitem` branch: either throws
(`Except.error`), reports a bad top-level format (`Option.none`, the
non-throwing warning path), or produces the `parsedItems` JS value.
`jsonParse` is the abstract host JSON.parse builtin (throwing modelled as
`Except.error`). -/
def hasitemParsedB (jsonParse : String → Except Unit JVal) (v : String) :
    Except Unit (Option JVal) :=
  if strStarts v "[" then
    if strEnds v "]" = false then .error ()
    else
      let content := strInner v
      if jsTrim content = "" then .ok (some (.arr []))
      else do
        let pieces := splitArrayContentB content
        let processed ← pieces.mapM (fun o =>
          let t := jsTrim o
          if strStarts t "\x7b" ∧ strEnds t "\x7d" then pure (parseObjectStringB (strInner t))
          else .error ())
        let j ← jsonParse ("[" ++ joinWith "," processed ++ "]")
        pure (some j)
  else if strStarts v "\x7b" then
    if strEnds v "\x7d" = false then .error ()
    else
      let content := strInner v
      if jsTrim content = "" then .ok (some (.arr [.obj []]))
      else do
        let j ← jsonParse (parseObjectStringB content)
        pure (some (.arr [j]))
  else .ok none

/-- Range decoding shared by the `quantity` and `slot` fields of an item
condition (`part_000` lines 305–340): a JSON number means an exact value,
otherwise the stringified value goes through the shared range grammar. -/
def decodeNumRange (j : JVal) : NumRange :=
  match j with
  | .num q => { min := some q, max := some q }
  | other =>
    let s := jvalToString other
    let r := rangeMinMax s
    { min := r.1.map (fun n => (n : ℚ)), max := r.2.map (fun n => (n : ℚ)) }

/-- Decoding of one parsed item condition into a `HasItemFilter`
(`part_000` lines 302–341).  Property access on `null` throws. -/
def decodeItemCondB (j : JVal) : Except Unit HasItemFilter :=
  match j with
  | .null => .error ()
  | _ =>
    let itemF := (jvalLookup j "item").map jvalToString
    let quantityF : Option NumRange :=
      match jvalLookup j "quantity" with
      | none => some { min := some 1 }
      | some q => some (decodeNumRange q)
    let dataF := (jvalLookup j "data").map (fun dv => jsParseInt (jvalToString dv))
    let locF := (jvalLookup j "location").map jvalToString
    let slotF : Option NumRange := (jvalLookup j "slot").map decodeNumRange
    .ok { item := itemF, quantity := quantityF, data := dataF, location := locF, slot := slotF }

/-- Decoding loop over `parsedItems`: a throw aborts the loop but earlier
pushes persist (`true` flags that the loop threw). -/
def decodeItemsB : List JVal → List HasItemFilter × Bool
  | [] => ([], false)
  | j :: rest =>
    match decodeItemCondB j with
    | .error _ => ([], true)
    | .ok f =>
      let r := decodeItemsB rest
      (f :: r.1, r.2)

/-- Net effect of the variant B `hasitem` case on the filter list, with the
console warnings it emits. -/
def hasitemCaseB (jsonParse : String → Except Unit JVal) (v : String) :
    List HasItemFilter × List Warn :=
  match hasitemParsedB jsonParse v with
  | .error _ => ([], [.hasitemParseFail])
  | .ok none => ([], [.hasitemBadFormat])
  | .ok (some j) =>
    match j with
    | .arr items =>
      let r := decodeItemsB items
      (r.1, if r.2 then [.hasitemParseFail] else [])
    | _ => ([], [])

/-! ## Variant A `hasitem` sub-parser (`EntitySelectorParser.ts` lines 231–301) -/

/-- Word characters of the key-quoting regular expression character class
(ASCII letters, digits and underscore). -/
def isWordChar (c : Char) : Bool :=
  ('a' ≤ c ∧ c ≤ 'z') ∨ ('A' ≤ c ∧ c ≤ 'Z') ∨ ('0' ≤ c ∧ c ≤ '9') ∨ c = '_'

/-- Single or double quote, the character class of the two optional quote
groups of the key-quoting regular expression (code point 39 is the single
quote). -/
def isQuoteChar (c : Char) : Bool := c = '"' ∨ c.toNat = 39

/-- Match attempt of the key-quoting regular expression at one scan
position, with the optional opening-quote group already decided: a nonempty
maximal word run, an optional closing quote, optional whitespace, then a
colon; returns the captured word and the input remaining after the colon.
The maximal word run is the only one the backtracking engine can accept:
after a shorter run the next character is a word character, which is
neither a quote, whitespace nor a colon.  A consumed closing quote that is
not followed by optional whitespace and a colon cannot be repaired by
declining the quote group, because a quote is neither whitespace nor a
colon. -/
def tryMatch1Core (l1 : List Char) : Option (List Char × List Char) :=
  let w := l1.takeWhile isWordChar
  if w = [] then none
  else
    let rest1 := l1.drop w.length
    let withQuote : Option (List Char) :=
      match rest1 with
      | q :: r2 =>
        if isQuoteChar q then
          match r2.dropWhile isWS with
          | ':' :: r4 => some r4
          | _ => none
        else none
      | [] => none
    match withQuote with
    | some r4 => some (w, r4)
    | none =>
      match rest1.dropWhile isWS with
      | ':' :: r4 => some (w, r4)
      | _ => none

/-- Match attempt of the key-quoting regular expression at one scan
position: an opening quote, when present, is consumed first; declining it
can never turn the failure into a match, because the word-run group cannot
match the quote character itself. -/
def tryMatch1 (l : List Char) : Option (List Char × List Char) :=
  match l with
  | [] => none
  | q :: r1 => if isQuoteChar q then tryMatch1Core r1 else tryMatch1Core l

/-- Global replacement pass of the first normalization step of the variant A
`hasitem` case (line 235): an optionally quoted word followed by optional
whitespace and a colon becomes the double-quoted word followed by a colon.
The scan goes left to right, continuing after each match; at a non-match
one character is copied.  Every step consumes at least one input character
and the fuel starts above the input length, so the out-of-fuel branch is
never taken. -/
def regex1Go : Nat → List Char → List Char
  | 0, l => l
  | _ + 1, [] => []
  | fuel + 1, c :: rest =>
    match tryMatch1 (c :: rest) with
    | some (w, rem) => '"' :: (w ++ '"' :: ':' :: regex1Go fuel rem)
    | none => c :: regex1Go fuel rest

/-- The negative lookahead shared by the second and third normalization
steps: the value position must not start with the word true, the word
false, an optionally negated digit, an opening brace, an opening bracket or
a double quote. -/
def lookaheadExcluded (l : List Char) : Bool :=
  listStarts l ['t', 'r', 'u', 'e'] || listStarts l ['f', 'a', 'l', 's', 'e'] ||
  (match l with
   | '-' :: d :: _ => d.isDigit
   | d :: _ => d.isDigit
   | [] => false) ||
  (match l with
   | '{' :: _ => true
   | '[' :: _ => true
   | '"' :: _ => true
   | _ => false)

/-- Lazy-dot scan of the second normalization step: the fewest characters
(none of them a newline, which the dot cannot match) up to the first comma,
closing brace or closing bracket; returns the capture, the delimiter and
the input after the delimiter. -/
def scanToDelim : List Char → Option (List Char × Char × List Char)
  | [] => none
  | c :: rest =>
    if c = ',' ∨ c = '}' ∨ c = ']' then some ([], c, rest)
    else if c = '\n' then none
    else
      match scanToDelim rest with
      | some (p1, d, r) => some (c :: p1, d, r)
      | none => none

/-- Backtracking loop of the greedy whitespace quantifier sitting between
the colon and the lookahead of the second normalization step: starting from
the full whitespace run after the colon and giving back one character at a
time, accept the first length at which the lookahead passes and a delimiter
is reachable.  A whitespace character starts none of the lookahead
alternatives, so giving back whitespace can turn a rejected position into
an accepted one: a value that looks like a number but is preceded by
whitespace does get captured (with the whitespace) and hence quoted. -/
def tryMatch2K (afterColon : List Char) : Nat → Option (List Char × Char × List Char)
  | 0 => if lookaheadExcluded afterColon then none else scanToDelim afterColon
  | k + 1 =>
    let rem := afterColon.drop (k + 1)
    match (if lookaheadExcluded rem then none else scanToDelim rem) with
    | some res => some res
    | none => tryMatch2K afterColon k

/-- Global replacement pass of the second normalization step (lines
236–239): an unquoted value between a colon and the next delimiter is
trimmed, double-quote-escaped and wrapped in quotes after a colon and a
space, the delimiter kept. -/
def regex2Go : Nat → List Char → List Char
  | 0, l => l
  | _ + 1, [] => []
  | fuel + 1, c :: rest =>
    if c = ':' then
      match tryMatch2K rest (rest.takeWhile isWS).length with
      | some (p1, d, r) =>
        ':' :: ' ' :: '"' :: ((escapeQuotes (jsTrim ⟨p1⟩)).data ++ '"' :: d :: regex2Go fuel r)
      | none => ':' :: regex2Go fuel rest
    else c :: regex2Go fuel rest

/-- Backtracking loop of the third normalization step, whose capture is
anchored at the end of input: the accepted capture is the whole remainder,
which the dot quantifier can only cross if it contains no newline. -/
def tryMatch3K (afterColon : List Char) : Nat → Option (List Char)
  | 0 =>
    if lookaheadExcluded afterColon = false ∧ afterColon.all (fun c => c != '\n')
    then some afterColon else none
  | k + 1 =>
    let rem := afterColon.drop (k + 1)
    if lookaheadExcluded rem = false ∧ rem.all (fun c => c != '\n')
    then some rem
    else tryMatch3K afterColon k

/-- Global replacement pass of the third normalization step (lines 240–243):
an unquoted value between a colon and the end of input is trimmed, escaped
and wrapped after a colon and a space.  The match extends to the end of the
input, so the first colon at which the lookahead admits a match produces
the only replacement. -/
def regex3Go : Nat → List Char → List Char
  | 0, l => l
  | _ + 1, [] => []
  | fuel + 1, c :: rest =>
    if c = ':' then
      match tryMatch3K rest (rest.takeWhile isWS).length with
      | some p1 => ':' :: ' ' :: '"' :: ((escapeQuotes (jsTrim ⟨p1⟩)).data ++ ['"'])
      | none => ':' :: regex3Go fuel rest
    else c :: regex3Go fuel rest

/-- The three-step normalization of the variant A `hasitem` value toward
JSON (lines 233–243). -/
def jsonCompliantA (v : String) : String :=
  let s1 := regex1Go (v.data.length + 1) v.data
  let s2 := regex2Go (s1.length + 1) s1
  ⟨regex3Go (s2.length + 1) s2⟩

/-! ## A concrete JSON.parse model (recursive descent over the JSON grammar) -/

/-- Whitespace of the JSON grammar as accepted by the JSON.parse builtin. -/
def jsonWSp (c : Char) : Bool := c = ' ' ∨ c = '\t' ∨ c = '\n' ∨ c = '\r'

/-- Value of a hexadecimal digit. -/
def hexVal (c : Char) : Option Nat :=
  if '0' ≤ c ∧ c ≤ '9' then some (c.toNat - '0'.toNat)
  else if 'a' ≤ c ∧ c ≤ 'f' then some (c.toNat - 'a'.toNat + 10)
  else if 'A' ≤ c ∧ c ≤ 'F' then some (c.toNat - 'A'.toNat + 10)
  else none

/-- JSON string body after the opening quote: characters up to the closing
quote, decoding escape sequences; unescaped control characters, unknown
escapes and unterminated strings are errors. -/
def jpStringGo : Nat → List Char → List Char → Option (String × List Char)
  | 0, _, _ => none
  | _ + 1, _, [] => none
  | fuel + 1, acc, c :: rest =>
    if c = '"' then some (⟨acc.reverse⟩, rest)
    else if c = '\\' then
      match rest with
      | [] => none
      | e :: rest1 =>
        if e = '"' then jpStringGo fuel ('"' :: acc) rest1
        else if e = '\\' then jpStringGo fuel ('\\' :: acc) rest1
        else if e = '/' then jpStringGo fuel ('/' :: acc) rest1
        else if e = 'b' then jpStringGo fuel ('\x08' :: acc) rest1
        else if e = 'f' then jpStringGo fuel ('\x0c' :: acc) rest1
        else if e = 'n' then jpStringGo fuel ('\n' :: acc) rest1
        else if e = 'r' then jpStringGo fuel ('\r' :: acc) rest1
        else if e = 't' then jpStringGo fuel ('\t' :: acc) rest1
        else if e = 'u' then
          match rest1 with
          | h1 :: h2 :: h3 :: h4 :: rest2 =>
            match hexVal h1, hexVal h2, hexVal h3, hexVal h4 with
            | some a, some b, some c2, some d =>
              jpStringGo fuel (Char.ofNat (((a * 16 + b) * 16 + c2) * 16 + d) :: acc) rest2
            | _, _, _, _ => none
          | _ => none
        else none
    else if c.toNat < 32 then none
    else jpStringGo fuel (c :: acc) rest

/-- JSON number grammar: optional minus, an integer part without leading
zeros, an optional fraction with at least one digit, an optional exponent
with at least one digit; the value is computed exactly as a rational. -/
def jpNumber (l : List Char) : Option (ℚ × List Char) :=
  let negP : Bool := match l with
    | '-' :: _ => true
    | _ => false
  let l1 := if negP then l.drop 1 else l
  let intDs := l1.takeWhile Char.isDigit
  if intDs = [] then none
  else if intDs.length > 1 ∧ intDs.headD ' ' = '0' then none
  else
    let l2 := l1.drop intDs.length
    let hasFrac : Bool := match l2 with
      | '.' :: _ => true
      | _ => false
    let fracDs := if hasFrac then (l2.drop 1).takeWhile Char.isDigit else []
    if hasFrac ∧ fracDs = [] then none
    else
      let l3 := if hasFrac then (l2.drop 1).drop fracDs.length else l2
      let hasExp : Bool := match l3 with
        | 'e' :: _ => true
        | 'E' :: _ => true
        | _ => false
      let l4 := match l3 with
        | 'e' :: r => r
        | 'E' :: r => r
        | _ => l3
      let expNegP : Bool := match l4 with
        | '-' :: _ => true
        | _ => false
      let l5 := match l4 with
        | '-' :: r => r
        | '+' :: r => r
        | _ => l4
      let expDs := l5.takeWhile Char.isDigit
      if hasExp ∧ expDs = [] then none
      else
        let rest := if hasExp then l5.drop expDs.length else l3
        let den : Nat := Nat.pow 10 fracDs.length
        let mantNum : Int := (if negP then -1 else 1) *
          ((digitsToNat intDs : Int) * (den : Int) + (digitsToNat fracDs : Int))
        let ex : Int :=
          if hasExp then (if expNegP then -1 else 1) * (digitsToNat expDs : Int) else 0
        if ex ≥ 0 then some (mkRat (mantNum * ((Nat.pow 10 ex.toNat : Nat) : Int)) den, rest)
        else some (mkRat mantNum (den * Nat.pow 10 (-ex).toNat), rest)

mutual
/-- One JSON value, leading whitespace allowed, returning the input after
it.  The fuel strictly exceeds twice the input length; every recursive call
both burns one unit and consumes input, so the out-of-fuel branch is never
taken on the initial fuel. -/
def jpValue : Nat → List Char → Option (JVal × List Char)
  | 0, _ => none
  | fuel + 1, input =>
    let l := input.dropWhile jsonWSp
    match l with
    | 'n' :: rest => if listStarts rest ['u', 'l', 'l'] then some (.null, rest.drop 3) else none
    | 't' :: rest => if listStarts rest ['r', 'u', 'e'] then some (.bool true, rest.drop 3) else none
    | 'f' :: rest =>
      if listStarts rest ['a', 'l', 's', 'e'] then some (.bool false, rest.drop 4) else none
    | '"' :: rest =>
      match jpStringGo (rest.length + 1) [] rest with
      | some (s, r) => some (.str s, r)
      | none => none
    | '[' :: rest =>
      let r1 := rest.dropWhile jsonWSp
      match r1 with
      | ']' :: r2 => some (.arr [], r2)
      | _ =>
        match jpArrayTail fuel r1 [] with
        | some (els, r2) => some (.arr els, r2)
        | none => none
    | '{' :: rest =>
      let r1 := rest.dropWhile jsonWSp
      match r1 with
      | '}' :: r2 => some (.obj [], r2)
      | _ =>
        match jpObjectTail fuel r1 [] with
        | some (ms, r2) => some (.obj ms, r2)
        | none => none
    | _ =>
      match jpNumber l with
      | some (q, r) => some (.num q, r)
      | none => none

/-- Elements of a nonempty JSON array after the opening bracket. -/
def jpArrayTail : Nat → List Char → List JVal → Option (List JVal × List Char)
  | 0, _, _ => none
  | fuel + 1, l, acc =>
    match jpValue fuel l with
    | none => none
    | some (v, r) =>
      let r1 := r.dropWhile jsonWSp
      match r1 with
      | ',' :: r2 => jpArrayTail fuel r2 (acc ++ [v])
      | ']' :: r2 => some (acc ++ [v], r2)
      | _ => none

/-- Members of a nonempty JSON object after the opening brace. -/
def jpObjectTail : Nat → List Char → List (String × JVal) →
    Option (List (String × JVal) × List Char)
  | 0, _, _ => none
  | fuel + 1, l, acc =>
    let l1 := l.dropWhile jsonWSp
    match l1 with
    | '"' :: rest =>
      match jpStringGo (rest.length + 1) [] rest with
      | none => none
      | some (k, r) =>
        let r1 := r.dropWhile jsonWSp
        match r1 with
        | ':' :: r2 =>
          match jpValue fuel r2 with
          | none => none
          | some (v, r3) =>
            let r4 := r3.dropWhile jsonWSp
            match r4 with
            | ',' :: r5 => jpObjectTail fuel r5 (acc ++ [(k, v)])
            | '}' :: r5 => some (acc ++ [(k, v)], r5)
            | _ => none
        | _ => none
    | _ => none
end

/-- Model of the host JSON.parse builtin as a recursive descent over the
JSON grammar: one value, then only trailing whitespace; `Except.error`
models a thrown SyntaxError. -/
def jsonParseModel (s : String) : Except Unit JVal :=
  match jpValue (2 * s.data.length + 2) s.data with
  | some (v, rest) => if rest.dropWhile jsonWSp = [] then .ok v else .error ()
  | none => .error ()

/-- Boolean test that a JSON.parse result threw. -/
def exceptErrored : Except Unit JVal → Bool
  | .error _ => true
  | .ok _ => false

/-- Decoding of one parsed item condition in variant A (lines 256–296).
Like variant B, but only a string-typed `quantity` or `slot` goes through
the range grammar; any other non-number type leaves the written range
object empty, and an absent `slot` writes nothing.  Property access on a
`null` element throws. -/
def decodeItemCondA (j : JVal) : Except Unit HasItemFilter :=
  match j with
  | .null => .error ()
  | _ =>
    let itemF := (jvalLookup j "item").map jvalToString
    let quantityF : Option NumRange :=
      match jvalLookup j "quantity" with
      | none => some { min := some 1 }
      | some (.num q) => some { min := some q, max := some q }
      | some (.str s) =>
        let r := rangeMinMax s
        some { min := r.1.map (fun n => (n : ℚ)), max := r.2.map (fun n => (n : ℚ)) }
      | some _ => some {}
    let dataF := (jvalLookup j "data").map (fun dv => jsParseInt (jvalToString dv))
    let locF := (jvalLookup j "location").map jvalToString
    let slotF : Option NumRange :=
      match jvalLookup j "slot" with
      | none => none
      | some (.num q) => some { min := some q, max := some q }
      | some (.str s) =>
        let r := rangeMinMax s
        some { min := r.1.map (fun n => (n : ℚ)), max := r.2.map (fun n => (n : ℚ)) }
      | some _ => some {}
    .ok { item := itemF, quantity := quantityF, data := dataF, location := locF, slot := slotF }

/-- Variant A decoding loop over `parsedItems`: a throw aborts the loop but
earlier pushes persist (`true` flags that the loop threw). -/
def decodeItemsA : List JVal → List HasItemFilter × Bool
  | [] => ([], false)
  | j :: rest =>
    match decodeItemCondA j with
    | .error _ => ([], true)
    | .ok f =>
      let r := decodeItemsA rest
      (f :: r.1, r.2)

/-- Net effect of the variant A `hasitem` case (lines 231–301): normalize
the value, branch on its first character, parse with the JSON.parse model,
then run the decode loop — whose earlier pushes persist when a later
element throws, because each push sits inside the try block before the next
element is examined. -/
def hasitemCaseA (v : String) : List HasItemFilter × List Warn :=
  if strStarts (jsonCompliantA v) "[" then
    match jsonParseModel (jsonCompliantA v) with
    | .error _ => ([], [.hasitemParseFail])
    | .ok j =>
      match j with
      | .arr items =>
        let r := decodeItemsA items
        (r.1, if r.2 then [.hasitemParseFail] else [])
      | _ => ([], [])
  else if strStarts (jsonCompliantA v) "\x7b" then
    match jsonParseModel (jsonCompliantA v) with
    | .error _ => ([], [.hasitemParseFail])
    | .ok j =>
      let r := decodeItemsA [j]
      (r.1, if r.2 then [.hasitemParseFail] else [])
  else ([], [.hasitemBadFormat])

/-! ## Argument dispatch -/

/-- Execution-context coordinate with zero fallback
(`this.executionLocation?.x ?? 0`). -/
def ctxAxis (ctx : Option JVec) (ax : Axis) : JSNum :=
  match ctx with
  | none => some 0
  | some l =>
    match ax with
    | .X => l.x
    | .Y => l.y
    | .Z => l.z

/-- Variant A `x`/`y`/`z` case (`EntitySelectorParser.ts` lines 163–176):
lazily initialize `location` with the parsed value already on the named axis
and context (or zero) elsewhere, then assign the named axis. -/
def xyzCaseA (ctx : Option JVec) (q : QueryOpts) (ax : Axis) (val : JSNum) : QueryOpts :=
  let loc0 := match q.location with
    | some l => l
    | none =>
      { x := if ax = .X then val else ctxAxis ctx .X,
        y := if ax = .Y then val else ctxAxis ctx .Y,
        z := if ax = .Z then val else ctxAxis ctx .Z }
  { q with location := some (setJVecAxis loc0 ax val) }

/-- Variant B `x`/`y`/`z` case (`part_000` lines 143–154): lazily initialize
`location` from the context (or zero), then assign the named axis. -/
def xyzCaseB (ctx : Option JVec) (q : QueryOpts) (ax : Axis) (val : JSNum) : QueryOpts :=
  let loc0 := match q.location with
    | some l => l
    | none => { x := ctxAxis ctx .X, y := ctxAxis ctx .Y, z := ctxAxis ctx .Z }
  { q with location := some (setJVecAxis loc0 ax val) }

/-- Shared `dx`/`dy`/`dz` case: lazily initialize `volume` to `(0,0,0)`,
then assign the named axis. -/
def dxyzCase (q : QueryOpts) (ax : Axis) (val : JSNum) : QueryOpts :=
  let vol0 := match q.volume with
    | some v => v
    | none => { x := some 0, y := some 0, z := some 0 }
  { q with volume := some (setJVecAxis vol0 ax val) }

/-- Shared `scores` case (`EntitySelectorParser.ts` lines 205–230 =
`part_000` lines 186–214): brace-delimited comma list of `objective=range`
pairs; the range value is `split("=")[1]`; a filter is pushed only when at
least one bound parsed. -/
def scoresCase (q : QueryOpts) (tv : String) : QueryOpts :=
  if strStarts tv "\x7b" ∧ strEnds tv "\x7d" then
    let scoreArgs := (splitOnChar ',' (strInner tv).data).map (fun l => (⟨l⟩ : String))
    let base := q.scoreOptions.getD []
    let added := scoreArgs.foldl (fun acc sa =>
      let ps := splitEq sa
      let objName := ps.headD ""
      match ps.get? 1 with
      | none => acc
      | some scoreValStr =>
        if objName ≠ "" ∧ scoreValStr ≠ "" then
          let r := rangeMinMax (jsTrim scoreValStr)
          if r.1 ≠ none ∨ r.2 ≠ none then
            acc ++ [{ objective := jsTrim objName, minScore := r.1, maxScore := r.2 }]
          else acc
        else acc) []
    { q with scoreOptions := some (base ++ added) }
  else q

/-- Dispatch of variant A (`EntitySelectorParser.ts` lines 133–307) on an
already-split key and processed value.  The `hasitem` case takes its
sub-parser as the parameter `hA`: theorems that depend on the hasitem
pipeline instantiate `hA` with its concrete embedding `hasitemCaseA`
(lines 231–301 above), the others hold for every `hA`. -/
def dispatchA (hA : String → List HasItemFilter × List Warn) (ctx : Option JVec)
    (st : SelState) (trimmedKey tv : String) : SelState × List Warn :=
  match trimmedKey with
  | "type" =>
    if strStarts tv "!" then
      ({ st with query := { st.query with
          excludeTypes := some ((st.query.excludeTypes.getD []) ++ [strDrop tv 1]) } }, [])
    else ({ st with query := { st.query with type := some tv } }, [])
  | "name" => ({ st with query := { st.query with name := some tv } }, [])
  | "tag" =>
    if strStarts tv "!" then
      ({ st with query := { st.query with
          excludeTags := some ((st.query.excludeTags.getD []) ++ [strDrop tv 1]) } }, [])
    else
      ({ st with query := { st.query with
          tags := some ((st.query.tags.getD []) ++ [tv]) } }, [])
  | "family" =>
    if strStarts tv "!" then
      ({ st with query := { st.query with
          excludeFamilies := some ((st.query.excludeFamilies.getD []) ++ [strDrop tv 1]) } }, [])
    else
      ({ st with query := { st.query with
          families := some ((st.query.families.getD []) ++ [tv]) } }, [])
  | "x" => ({ st with query := xyzCaseA ctx st.query .X (jsParseFloat tv) }, [])
  | "y" => ({ st with query := xyzCaseA ctx st.query .Y (jsParseFloat tv) }, [])
  | "z" => ({ st with query := xyzCaseA ctx st.query .Z (jsParseFloat tv) }, [])
  | "dx" => ({ st with query := dxyzCase st.query .X (jsParseFloat tv) }, [])
  | "dy" => ({ st with query := dxyzCase st.query .Y (jsParseFloat tv) }, [])
  | "dz" => ({ st with query := dxyzCase st.query .Z (jsParseFloat tv) }, [])
  | "r" => ({ st with query := { st.query with maxDistance := some (jsParseInt tv) } }, [])
  | "rm" => ({ st with query := { st.query with minDistance := some (jsParseInt tv) } }, [])
  | "c" =>
    (match jsParseInt tv with
     | none => st
     | some n =>
       if n > 0 then { st with query := { st.query with closest := some n } }
       else if n < 0 then { st with query := { st.query with farthest := some (n.natAbs : Int) } }
       else st, [])
  | "m" => ({ st with query := { st.query with gameMode := some tv } }, [])
  | "l" => ({ st with query := { st.query with maxLevel := some (jsParseInt tv) } }, [])
  | "lm" => ({ st with query := { st.query with minLevel := some (jsParseInt tv) } }, [])
  | "scores" => ({ st with query := scoresCase st.query tv }, [])
  | "hasitem" =>
    let r := hA tv
    ({ st with hasItemFilters := st.hasItemFilters ++ r.1 }, r.2)
  | k => (st, [.unsupportedKey k])

/-- Dispatch of variant B (`part_000` lines 103–350): variant A's keys plus
`rx`/`rxm`/`ry`/`rym`, and the explicit `hasitem` sub-parser. -/
def dispatchB (jsonParse : String → Except Unit JVal) (ctx : Option JVec)
    (st : SelState) (trimmedKey tv : String) : SelState × List Warn :=
  match trimmedKey with
  | "type" =>
    if strStarts tv "!" then
      ({ st with query := { st.query with
          excludeTypes := some ((st.query.excludeTypes.getD []) ++ [strDrop tv 1]) } }, [])
    else ({ st with query := { st.query with type := some tv } }, [])
  | "name" => ({ st with query := { st.query with name := some tv } }, [])
  | "tag" =>
    if strStarts tv "!" then
      ({ st with query := { st.query with
          excludeTags := some ((st.query.excludeTags.getD []) ++ [strDrop tv 1]) } }, [])
    else
      ({ st with query := { st.query with
          tags := some ((st.query.tags.getD []) ++ [tv]) } }, [])
  | "family" =>
    if strStarts tv "!" then
      ({ st with query := { st.query with
          excludeFamilies := some ((st.query.excludeFamilies.getD []) ++ [strDrop tv 1]) } }, [])
    else
      ({ st with query := { st.query with
          families := some ((st.query.families.getD []) ++ [tv]) } }, [])
  | "m" => ({ st with query := { st.query with gameMode := some tv } }, [])
  | "l" => ({ st with query := { st.query with maxLevel := some (jsParseInt tv) } }, [])
  | "lm" => ({ st with query := { st.query with minLevel := some (jsParseInt tv) } }, [])
  | "x" => ({ st with query := xyzCaseB ctx st.query .X (jsParseFloat tv) }, [])
  | "y" => ({ st with query := xyzCaseB ctx st.query .Y (jsParseFloat tv) }, [])
  | "z" => ({ st with query := xyzCaseB ctx st.query .Z (jsParseFloat tv) }, [])
  | "dx" => ({ st with query := dxyzCase st.query .X (jsParseFloat tv) }, [])
  | "dy" => ({ st with query := dxyzCase st.query .Y (jsParseFloat tv) }, [])
  | "dz" => ({ st with query := dxyzCase st.query .Z (jsParseFloat tv) }, [])
  | "r" => ({ st with query := { st.query with maxDistance := some (jsParseInt tv) } }, [])
  | "rm" => ({ st with query := { st.query with minDistance := some (jsParseInt tv) } }, [])
  | "c" =>
    (match jsParseInt tv with
     | none => st
     | some n =>
       if n > 0 then { st with query := { st.query with closest := some n } }
       else if n < 0 then { st with query := { st.query with farthest := some (n.natAbs : Int) } }
       else st, [])
  | "rx" => ({ st with query := { st.query with maxVerticalRotation := some (jsParseFloat tv) } }, [])
  | "rxm" => ({ st with query := { st.query with minVerticalRotation := some (jsParseFloat tv) } }, [])
  | "ry" => ({ st with query := { st.query with maxHorizontalRotation := some (jsParseFloat tv) } }, [])
  | "rym" => ({ st with query := { st.query with minHorizontalRotation := some (jsParseFloat tv) } }, [])
  | "scores" => ({ st with query := scoresCase st.query tv }, [])
  | "hasitem" =>
    let r := hasitemCaseB jsonParse tv
    ({ st with hasItemFilters := st.hasItemFilters ++ r.1 }, r.2)
  | k => (st, [.unsupportedKey k])

/-- One argument token processed by variant A: split at `=`, skip an empty
key, trim/unquote, dispatch. -/
def applyArgA (hA : String → List HasItemFilter × List Warn) (ctx : Option JVec)
    (st : SelState) (arg : String) : SelState × List Warn :=
  if argKey arg = "" then (st, [.invalidArg])
  else dispatchA hA ctx st (jsTrim (argKey arg)) (stripQuotes (argValue arg))

/-- One argument token processed by variant B. -/
def applyArgB (jsonParse : String → Except Unit JVal) (ctx : Option JVec)
    (st : SelState) (arg : String) : SelState × List Warn :=
  if argKey arg = "" then (st, [.invalidArg])
  else dispatchB jsonParse ctx st (jsTrim (argKey arg)) (stripQuotes (argValue arg))

/-- Interpretation loop of variant A's `_parseArguments`: tokenize, skip
empty tokens, fold the dispatcher, accumulating console warnings. -/
def parseArgumentsA (hA : String → List HasItemFilter × List Warn) (ctx : Option JVec)
    (st : SelState) (argsString : String) : SelState × List Warn :=
  (parseArgTokens argsString).foldl
    (fun acc a =>
      if a = "" then acc
      else
        let r := applyArgA hA ctx acc.1 a
        (r.1, acc.2 ++ r.2))
    (st, [])

/-- Interpretation loop of variant B's `_parseArguments`. -/
def parseArgumentsB (jsonParse : String → Except Unit JVal) (ctx : Option JVec)
    (st : SelState) (argsString : String) : SelState × List Warn :=
  (parseArgTokens argsString).foldl
    (fun acc a =>
      if a = "" then acc
      else
        let r := applyArgB jsonParse ctx acc.1 a
        (r.1, acc.2 ++ r.2))
    (st, [])

/-- Spec-side fold of variant A over an argument list (no empty-token
guard); used to state that empty tokens yield no argument. -/
def foldApplyA (hA : String → List HasItemFilter × List Warn) (ctx : Option JVec)
    (st : SelState) (args : List String) : SelState × List Warn :=
  args.foldl (fun acc a =>
    let r := applyArgA hA ctx acc.1 a
    (r.1, acc.2 ++ r.2)) (st, [])

/-- Spec-side fold of variant B over an argument list. -/
def foldApplyB (jsonParse : String → Except Unit JVal) (ctx : Option JVec)
    (st : SelState) (args : List String) : SelState × List Warn :=
  args.foldl (fun acc a =>
    let r := applyArgB jsonParse ctx acc.1 a
    (r.1, acc.2 ++ r.2)) (st, [])

/-! ## NaN-aware JS number operations -/

/-- JS `+` on numbers (`NaN` propagates). -/
def jadd : JSNum → JSNum → JSNum
  | some a, some b => some (a + b)
  | _, _ => none

/-- JS `-` on numbers. -/
def jsub : JSNum → JSNum → JSNum
  | some a, some b => some (a - b)
  | _, _ => none

/-- JS `*` on numbers. -/
def jmul : JSNum → JSNum → JSNum
  | some a, some b => some (a * b)
  | _, _ => none

/-- `Math.min` (`NaN` propagates); written with an explicit comparison so
that it evaluates by kernel reduction. -/
def jmin : JSNum → JSNum → JSNum
  | some a, some b => some (if a ≤ b then a else b)
  | _, _ => none

/-- `Math.max`. -/
def jmax : JSNum → JSNum → JSNum
  | some a, some b => some (if a ≤ b then b else a)
  | _, _ => none

/-- JS `<` (comparisons with `NaN` are false). -/
def jlt (a b : JSNum) : Bool :=
  match a, b with
  | some x, some y => x < y
  | _, _ => false

/-- JS `>` on numbers. -/
def jgt (a b : JSNum) : Bool :=
  match a, b with
  | some x, some y => x > y
  | _, _ => false

/-- JS `>=` on numbers. -/
def jge (a b : JSNum) : Bool :=
  match a, b with
  | some x, some y => x ≥ y
  | _, _ => false

/-- Cast of a `parseInt` result into a JS number. -/
def jofInt (a : JSInt) : JSNum := a.map (fun n => (n : ℚ))

/-- Truthiness of an optional string property (the empty string is falsy). -/
def jsTruthyOptStr : Option String → Bool
  | some s => s ≠ ""
  | none => false

/-- JS `x || d` for an optional integer property (`0` is falsy). -/
def jsOrInt (o : Option Int) (d : Int) : Int :=
  match o with
  | some n => if n = 0 then d else n
  | none => d

/-! ## Entity and host model -/

/-- Read-only view of one host entity, covering the accessors the selector
evaluator uses. -/
structure EntityRec where
  eid : Nat
  typeId : String := ""
  nameTag : String := ""
  tags : List String := []
  families : List String := []
  isPlayer : Bool := false
  gameModeOf : String := ""
  level : Int := 0
  loc : JVec := {}
  rotX : ℚ := 0
  rotY : ℚ := 0
  scoreId : Option Nat := none
deriving DecidableEq, Repr

/-- A scoreboard objective: scores indexed by scoreboard identity. -/
structure ObjectiveRec where
  scoreOf : Nat → Option Int

/-- Host capability surface consumed by `getEntities`: the dimension pool
query, the scoreboard service, and the inventory matcher
(`_checkSingleEntityHasItem`, which only reads host inventory/equipment
components). -/
structure HostEnv where
  getEntities : QueryOpts → List EntityRec
  getObjective : String → Option ObjectiveRec
  checkHasItem : EntityRec → HasItemFilter → Bool

/-- Model of `_calculateDistanceSquared` (identical in both variants). -/
def calcDistSq (a b : JVec) : JSNum :=
  let dx := jsub a.x b.x
  let dy := jsub a.y b.y
  let dz := jsub a.z b.z
  jadd (jadd (jmul dx dx) (jmul dy dy)) (jmul dz dz)

/-- Model of the per-entity predicate of `_filterByVolume`
(`EntitySelectorParser.ts` lines 453–479) = `_isWithinVolume` (`part_000`
lines 459–483): axis-aligned box between `location` and `location+volume`,
half-open above, a zero-extent axis spanning exactly one unit. -/
def isWithinVolume (el : JVec) (location volume : JVec) : Bool :=
  let minX := jmin location.x (jadd location.x volume.x)
  let maxX := jmax location.x (jadd location.x volume.x)
  let minY := jmin location.y (jadd location.y volume.y)
  let maxY := jmax location.y (jadd location.y volume.y)
  let minZ := jmin location.z (jadd location.z volume.z)
  let maxZ := jmax location.z (jadd location.z volume.z)
  let effMaxX := if volume.x = some 0 then jadd minX (some 1) else maxX
  let effMaxY := if volume.y = some 0 then jadd minY (some 1) else maxY
  let effMaxZ := if volume.z = some 0 then jadd minZ (some 1) else maxZ
  jge el.x minX && jlt el.x effMaxX &&
  jge el.y minY && jlt el.y effMaxY &&
  jge el.z minZ && jlt el.z effMaxZ

/-- Model of variant A's `_matchesScoreFilters` (lines 430–451): every
filter must find the objective and a score inside the bounds. -/
def matchesScoreFiltersA (env : HostEnv) (e : EntityRec) (fs : List ScoreFilter) : Bool :=
  match e.scoreId with
  | none => false
  | some sid =>
    fs.all (fun f =>
      match env.getObjective f.objective with
      | none => false
      | some obj =>
        match obj.scoreOf sid with
        | none => false
        | some sc =>
          (match f.minScore with
           | some m => decide (m ≤ sc)
           | none => true) &&
          (match f.maxScore with
           | some m => decide (sc ≤ m)
           | none => true))

/-- Truthy-guarded check on an optional property: `none` (undefined) makes
the guard fail. -/
def optCheck (o : Option α) (f : α → Bool) : Bool :=
  match o with
  | some a => f a
  | none => false

/-- Distance window checks shared by both manual filters (the final
`options.location` block of each). -/
def distanceBlock (e : EntityRec) (o : QueryOpts) : Bool :=
  match o.location with
  | none => true
  | some l =>
    let distSq := calcDistSq e.loc l
    if optCheck o.minDistance (fun mi => jlt distSq (jmul (jofInt mi) (jofInt mi))) then false
    else if optCheck o.maxDistance (fun ma => jgt distSq (jmul (jofInt ma) (jofInt ma))) then false
    else true

/-- Model of variant A's `_matchesManualFilters` (lines 374–429), used on
the `@s` path. -/
def matchesManualFiltersA (env : HostEnv) (e : EntityRec) (o : QueryOpts) : Bool :=
  if optCheck o.type (fun t => decide (t ≠ "") && decide (e.typeId ≠ t)) then false
  else if optCheck o.excludeTypes (fun l => l.contains e.typeId) then false
  else if optCheck o.name (fun n => decide (n ≠ "") && decide (e.nameTag ≠ n)) then false
  else if optCheck o.tags (fun ts => !(ts.all (fun t => e.tags.contains t))) then false
  else if optCheck o.excludeTags (fun ts => ts.any (fun t => e.tags.contains t)) then false
  else if optCheck o.families (fun fs => !(fs.all (fun f => e.families.contains f))) then false
  else if optCheck o.excludeFamilies (fun fs => fs.any (fun f => e.families.contains f)) then false
  else if optCheck o.gameMode (fun gm => decide (gm ≠ "") && e.isPlayer && decide (e.gameModeOf ≠ gm)) then false
  else if e.isPlayer && optCheck o.minLevel (fun mi =>
      optCheck mi (fun m => decide (e.level < m))) then false
  else if e.isPlayer && optCheck o.maxLevel (fun ma =>
      optCheck ma (fun m => decide (m < e.level))) then false
  else if optCheck o.scoreOptions (fun fs =>
      decide (fs.length > 0) && !(matchesScoreFiltersA env e fs)) then false
  else distanceBlock e o

/-- Model of variant B's `_checkExecutorMatchesBaseQuery` (`part_000` lines
485–526): manual filters plus rotation bounds; `scoreOptions` is not
checked. -/
def checkExecutorMatchesBaseQueryB (e : EntityRec) (o : QueryOpts) : Bool :=
  if optCheck o.type (fun t => decide (t ≠ "") && decide (e.typeId ≠ t)) then false
  else if optCheck o.excludeTypes (fun l => l.contains e.typeId) then false
  else if optCheck o.name (fun n => decide (n ≠ "") && decide (e.nameTag ≠ n)) then false
  else if optCheck o.tags (fun ts => !(ts.all (fun t => e.tags.contains t))) then false
  else if optCheck o.excludeTags (fun ts => ts.any (fun t => e.tags.contains t)) then false
  else if optCheck o.families (fun fs => !(fs.all (fun f => e.families.contains f))) then false
  else if optCheck o.excludeFamilies (fun fs => fs.any (fun f => e.families.contains f)) then false
  else if e.isPlayer && optCheck o.gameMode (fun gm =>
      decide (gm ≠ "") && decide (e.gameModeOf ≠ gm)) then false
  else if e.isPlayer && optCheck o.minLevel (fun mi =>
      optCheck mi (fun m => decide (e.level < m))) then false
  else if e.isPlayer && optCheck o.maxLevel (fun ma =>
      optCheck ma (fun m => decide (m < e.level))) then false
  else if optCheck o.minHorizontalRotation (fun v => jlt (some e.rotY) v) then false
  else if optCheck o.maxHorizontalRotation (fun v => jgt (some e.rotY) v) then false
  else if optCheck o.minVerticalRotation (fun v => jlt (some e.rotX) v) then false
  else if optCheck o.maxVerticalRotation (fun v => jgt (some e.rotX) v) then false
  else distanceBlock e o

/-! ## Random sampling (`@r` path, shared loop shape) -/

/-- One sampling loop: at each step draw `Math.floor(Math.random() * len)`
and splice that element out of the pool.  `rng i` is the `i`-th
`Math.random()` draw. -/
def sampleGo (rng : Nat → ℚ) : Nat → Nat → List EntityRec → List EntityRec → List EntityRec
  | 0, _, _, acc => acc
  | Nat.succ k, i, pool, acc =>
    if pool.length > 0 then
      let idx := (Int.floor (rng i * (pool.length : ℚ))).toNat
      let acc' := acc ++ (match pool.get? idx with
        | some e => [e]
        | none => [])
      sampleGo rng k (i + 1) (pool.eraseIdx idx) acc'
    else acc

/-- Sampling without replacement, `count` elements (a non-positive count
yields nothing, matching the `for` guard). -/
def randomSample (rng : Nat → ℚ) (count : Int) (pool : List EntityRec) : List EntityRec :=
  sampleGo rng count.toNat 0 pool []

/-! ## Selector evaluation -/

/-- Parse-time fields of one `EntitySelector` instance that `getEntities`
reads. -/
structure SelectorInst where
  symbol : String := "@e"
  state : SelState := {}
  execLoc : Option JVec := none
  executor : Option EntityRec := none
deriving Repr

/-- Variant A score post-filter (applied when `scoreOptions` is a nonempty
list). -/
def scoreFilterPassA (env : HostEnv) (q : QueryOpts) (es : List EntityRec) : List EntityRec :=
  match q.scoreOptions with
  | some fs => if fs.length > 0 then es.filter (fun e => matchesScoreFiltersA env e fs) else es
  | none => es

/-- Per-symbol phase of variant A's `getEntities` (lines 311–358): the
switch over the selector symbol, producing the pre-post-filter entity list
and any console warnings.  `baseQuery` is the per-call copy with
`scoreOptions` deleted. -/
def basePhaseA (env : HostEnv) (rng : Nat → ℚ) (inst : SelectorInst) :
    List EntityRec × List Warn :=
  let q := inst.state.query
  let baseQuery : QueryOpts := { q with scoreOptions := none }
  match inst.symbol with
  | "@s" =>
    match inst.executor with
    | some ex => (if matchesManualFiltersA env ex q then [ex] else [], [])
    | none => ([], [.noExecutor])
  | "@p" =>
    let b1 := { baseQuery with type := some "minecraft:player" }
    let b2 := match inst.execLoc with
      | some l => { b1 with location := some l }
      | none => b1
    let b3 := { b2 with closest := some (jsOrInt q.closest 1) }
    (env.getEntities b3, [])
  | "@a" => (env.getEntities { baseQuery with type := some "minecraft:player" }, [])
  | "@r" =>
    let b1 := if jsTruthyOptStr baseQuery.type then baseQuery
      else { baseQuery with type := some "minecraft:player" }
    let all1 := scoreFilterPassA env q (env.getEntities b1)
    (if all1.length > 0 then randomSample rng (jsOrInt q.closest 1) all1 else [], [])
  | _ => (scoreFilterPassA env q (env.getEntities baseQuery), [])

/-- Model of variant A's `getEntities` (lines 311–372): per-symbol phase,
then the volume post-filter, then the `hasitem` post-filter.  The returned
`SelectorInst` is the object state after the call (the source performs no
write to any instance field, so the input instance is returned). -/
def getEntitiesA (env : HostEnv) (rng : Nat → ℚ) (inst : SelectorInst) :
    List EntityRec × SelectorInst × List Warn :=
  let p := basePhaseA env rng inst
  let q := inst.state.query
  let e1 := match q.volume, q.location with
    | some v, some l => p.1.filter (fun e => isWithinVolume e.loc l v)
    | _, _ => p.1
  let e2 := if inst.state.hasItemFilters.length > 0 then
      e1.filter (fun e => inst.state.hasItemFilters.all (fun f => env.checkHasItem e f))
    else e1
  (e2, inst, p.2)

/-- The restricted option record variant B passes to
`_checkExecutorMatchesBaseQuery` for `@s` (`part_000` lines 361–377). -/
def queryForSB (cq : QueryOpts) : QueryOpts :=
  { type := cq.type, excludeTypes := cq.excludeTypes, name := cq.name,
    tags := cq.tags, excludeTags := cq.excludeTags, families := cq.families,
    excludeFamilies := cq.excludeFamilies, gameMode := cq.gameMode,
    minLevel := cq.minLevel, maxLevel := cq.maxLevel, scoreOptions := cq.scoreOptions,
    minHorizontalRotation := cq.minHorizontalRotation,
    maxHorizontalRotation := cq.maxHorizontalRotation,
    minVerticalRotation := cq.minVerticalRotation,
    maxVerticalRotation := cq.maxVerticalRotation }

/-- Variant B `@s` branch (`part_000` lines 358–401): executor checked
against the restricted query, then `hasitem`, then a direct volume
containment check. -/
def sBranchB (env : HostEnv) (inst : SelectorInst) (ex : EntityRec) : List EntityRec :=
  let cq := inst.state.query
  if checkExecutorMatchesBaseQueryB ex (queryForSB cq) then
    let a1 := if inst.state.hasItemFilters.length > 0 then
        [ex].filter (fun e => inst.state.hasItemFilters.all (fun f => env.checkHasItem e f))
      else [ex]
    match cq.volume, cq.location with
    | some v, some l => if isWithinVolume ex.loc l v then a1 else []
    | _, _ => a1
  else []

/-- Variant B automatic origin defaulting (`part_000` lines 403–419). -/
def autoLocB (execLoc : Option JVec) (cq : QueryOpts) : QueryOpts :=
  if cq.location = none ∧ (cq.minDistance ≠ none ∨ cq.maxDistance ≠ none ∨
      cq.closest ≠ none ∨ cq.farthest ≠ none ∨ cq.volume ≠ none ∨
      cq.minHorizontalRotation ≠ none ∨ cq.maxHorizontalRotation ≠ none ∨
      cq.minVerticalRotation ≠ none ∨ cq.maxVerticalRotation ≠ none) then
    match execLoc with
    | some l => { cq with location := some l }
    | none => cq
  else cq

/-- Variant B per-symbol query adjustment (`part_000` lines 421–432). -/
def symbolAdjustB (inst : SelectorInst) (cq : QueryOpts) : QueryOpts :=
  if inst.symbol = "@p" then
    { cq with type := some "minecraft:player", closest := some (jsOrInt inst.state.query.closest 1) }
  else if inst.symbol = "@a" then { cq with type := some "minecraft:player" }
  else if inst.symbol = "@r" then
    let c1 := if !(jsTruthyOptStr cq.type) && decide (cq.families = none) &&
        decide (cq.tags = none) && !(jsTruthyOptStr cq.name) then
        { cq with type := some "minecraft:player" }
      else cq
    { c1 with closest := none, farthest := none }
  else cq

/-- Variant B `@r` sampling pass (`part_000` lines 443–455): count is
`max(1, |closest ?? farthest ?? 1|)` read from the original parsed query. -/
def rSampleB (rng : Nat → ℚ) (inst : SelectorInst) (es : List EntityRec) : List EntityRec :=
  if inst.symbol = "@r" then
    if es.length > 0 then
      let countArg : Int := inst.state.query.closest.getD (inst.state.query.farthest.getD 1)
      let count : Int := max 1 (countArg.natAbs : Int)
      randomSample rng count es
    else es
  else es

/-- Model of variant B's `getEntities` (`part_000` lines 354–457).  As for
variant A, the returned `SelectorInst` is the unchanged object state. -/
def getEntitiesB (env : HostEnv) (rng : Nat → ℚ) (inst : SelectorInst) :
    List EntityRec × SelectorInst × List Warn :=
  if inst.symbol = "@s" then
    match inst.executor with
    | some ex => (sBranchB env inst ex, inst, [])
    | none => ([], inst, [.noExecutor])
  else
    let cq2 := symbolAdjustB inst (autoLocB inst.execLoc inst.state.query)
    let e0 := env.getEntities cq2
    let e1 := if inst.state.hasItemFilters.length > 0 then
        e0.filter (fun e => inst.state.hasItemFilters.all (fun f => env.checkHasItem e f))
      else e0
    (rSampleB rng inst e1, inst, [])

/-! ## Helper lemmas -/

theorem braceDepth_snoc (pre : List Char) (c : Char) :
    braceDepth (pre ++ [c]) =
      (if c = '{' then braceDepth pre + 1 else if c = '}' then braceDepth pre - 1
       else braceDepth pre) := by
  simp [braceDepth, List.foldl_append]

theorem bracketDepth_snoc (pre : List Char) (c : Char) :
    bracketDepth (pre ++ [c]) =
      (if c = '[' then bracketDepth pre + 1 else if c = ']' then bracketDepth pre - 1
       else bracketDepth pre) := by
  simp [bracketDepth, List.foldl_append]

theorem tokLoop_eq (rest : List Char) : ∀ (pre cur : List Char) (acc : List String),
    parseArgTokensLoop rest cur (braceDepth pre) (bracketDepth pre) acc
      = acc ++ (splitTopLevel pre rest cur).map (fun t => jsTrim ⟨t⟩) := by
  induction rest with
  | nil => intro pre cur acc; simp [parseArgTokensLoop, splitTopLevel]
  | cons ch rest ih =>
    intro pre cur acc
    by_cases h1 : ch = '{'
    · subst h1
      have h' := ih (pre ++ ['{']) (cur ++ ['{']) acc
      rw [braceDepth_snoc, bracketDepth_snoc] at h'
      simp only [Char.reduceEq, if_true, if_false, reduceIte] at h'
      simp only [parseArgTokensLoop, splitTopLevel, Char.reduceEq, if_true, if_false,
        false_and, reduceIte]
      exact h'
    · by_cases h2 : ch = '}'
      · subst h2
        have h' := ih (pre ++ ['}']) (cur ++ ['}']) acc
        rw [braceDepth_snoc, bracketDepth_snoc] at h'
        simp only [Char.reduceEq, if_true, if_false, reduceIte] at h'
        simp only [parseArgTokensLoop, splitTopLevel, Char.reduceEq, if_true, if_false,
          false_and, reduceIte]
        exact h'
      · by_cases h3 : ch = '['
        · subst h3
          have h' := ih (pre ++ ['[']) (cur ++ ['[']) acc
          rw [braceDepth_snoc, bracketDepth_snoc] at h'
          simp only [Char.reduceEq, if_true, if_false, reduceIte] at h'
          simp only [parseArgTokensLoop, splitTopLevel, Char.reduceEq, if_true, if_false,
            false_and, reduceIte]
          exact h'
        · by_cases h4 : ch = ']'
          · subst h4
            have h' := ih (pre ++ [']']) (cur ++ [']']) acc
            rw [braceDepth_snoc, bracketDepth_snoc] at h'
            simp only [Char.reduceEq, if_true, if_false, reduceIte] at h'
            simp only [parseArgTokensLoop, splitTopLevel, Char.reduceEq, if_true, if_false,
              false_and, reduceIte]
            exact h'
          · by_cases h5 : ch = ','
            · subst h5
              by_cases h6 : braceDepth pre = 0 ∧ bracketDepth pre = 0
              · have h' := ih (pre ++ [',']) [] (acc ++ [jsTrim ⟨cur⟩])
                rw [braceDepth_snoc, bracketDepth_snoc] at h'
                simp only [Char.reduceEq, if_true, if_false, reduceIte] at h'
                simp only [parseArgTokensLoop, splitTopLevel, Char.reduceEq, if_true, if_false,
                  true_and, reduceIte]
                rw [if_pos h6, if_pos h6, show (cur ++ [',']).dropLast = cur by simp, h',
                  List.map_cons]
                simp
              · have h' := ih (pre ++ [',']) (cur ++ [',']) acc
                rw [braceDepth_snoc, bracketDepth_snoc] at h'
                simp only [Char.reduceEq, if_true, if_false, reduceIte] at h'
                simp only [parseArgTokensLoop, splitTopLevel, Char.reduceEq, if_true, if_false,
                  true_and, reduceIte]
                rw [if_neg h6, if_neg h6]
                exact h'
            · have h' := ih (pre ++ [ch]) (cur ++ [ch]) acc
              rw [braceDepth_snoc, bracketDepth_snoc, if_neg h1, if_neg h2, if_neg h3,
                if_neg h4] at h'
              simp only [parseArgTokensLoop, splitTopLevel]
              rw [if_neg h1, if_neg h2, if_neg h3, if_neg h4,
                if_neg (by simp [h5]), if_neg (by simp [h5])]
              exact h'

theorem parseArgTokens_eq_specTokens (s : String) : parseArgTokens s = specTokens s := by
  have h := tokLoop_eq s.data [] [] []
  simpa [parseArgTokens, specTokens, braceDepth, bracketDepth] using h

theorem foldl_skip_empty {γ : Type} (f : γ → String → γ) (l : List String) :
    ∀ init : γ,
      l.foldl (fun acc a => if a = "" then acc else f acc a) init
        = (l.filter (fun t => t ≠ "")).foldl f init := by
  induction l with
  | nil => intro init; simp
  | cons a rest ih =>
    intro init
    by_cases h : a = ""
    · simp [h, List.filter_cons, ih]
    · simp [h, List.filter_cons, ih]

theorem splitOnChar_ne_nil (c : Char) (l : List Char) : splitOnChar c l ≠ [] := by
  induction l with
  | nil => simp [splitOnChar]
  | cons a rest ih =>
    simp only [splitOnChar]
    rcases h : splitOnChar c rest with _ | ⟨h1, t⟩
    · exact absurd h ih
    · by_cases hac : a = c <;> simp [hac]

theorem strMk_append (l1 l2 : List Char) :
    (⟨l1⟩ : String) ++ (⟨l2⟩ : String) = ⟨l1 ++ l2⟩ := rfl

theorem joinWith_splitOnChar (c : Char) (l : List Char) :
    joinWith ⟨[c]⟩ ((splitOnChar c l).map (fun x => (⟨x⟩ : String))) = ⟨l⟩ := by
  induction l with
  | nil => simp [splitOnChar, joinWith]
  | cons a rest ih =>
    rcases h : splitOnChar c rest with _ | ⟨h1, t⟩
    · exact absurd h (splitOnChar_ne_nil c rest)
    · rw [h] at ih
      simp only [List.map_cons] at ih
      by_cases hac : a = c
      · subst hac
        have hsp : splitOnChar a (a :: rest) = [] :: h1 :: t := by
          simp only [splitOnChar, h]
          simp
        rw [hsp]
        simp only [List.map_cons, joinWith]
        rw [ih]
        rfl
      · have hsp : splitOnChar c (a :: rest) = (a :: h1) :: t := by
          simp only [splitOnChar, h]
          simp [hac]
        rw [hsp]
        rcases t with _ | ⟨t0, ts⟩
        · simp only [List.map_cons, List.map_nil, joinWith] at ih ⊢
          have h2 : h1 = rest := congrArg String.data ih
          rw [h2]
        · simp only [List.map_cons, joinWith] at ih ⊢
          rcases hJ : joinWith ⟨[c]⟩ ((⟨t0⟩ : String) :: ts.map (fun x => (⟨x⟩ : String)))
            with ⟨jd⟩
          rw [hJ] at ih
          have hl : (a :: h1 ++ [c]) ++ jd = a :: rest := by
            have h2 : (h1 ++ [c]) ++ jd = rest := congrArg String.data ih
            simp only [List.cons_append, List.append_assoc] at h2 ⊢
            rw [h2]
          have := congrArg (fun (d : List Char) => (⟨d⟩ : String)) hl
          simpa [strMk_append] using this

theorem splitOnChar_sep (c : Char) (l : List Char) :
    ∀ k : List Char, c ∉ k → splitOnChar c (k ++ c :: l) = k :: splitOnChar c l := by
  intro k
  induction k with
  | nil =>
    intro _
    rcases h : splitOnChar c l with _ | ⟨h1, t⟩
    · exact absurd h (splitOnChar_ne_nil c l)
    · simp only [List.nil_append, splitOnChar, h]
      simp
  | cons a k ih =>
    intro hmem
    have ha : a ≠ c := fun hh => hmem (by simp [hh])
    have hk : c ∉ k := fun hh => hmem (by simp [hh])
    have hstep : (a :: k) ++ c :: l = a :: (k ++ c :: l) := rfl
    rw [hstep]
    simp only [splitOnChar]
    rw [ih hk]
    simp [ha]

theorem strData_append (s t : String) : (s ++ t).data = s.data ++ t.data := rfl

theorem argKey_sep (k v : String) (h : '=' ∉ k.data) : argKey (k ++ "=" ++ v) = k := by
  rcases k with ⟨kd⟩
  rcases v with ⟨vd⟩
  have hdata : ((⟨kd⟩ : String) ++ "=" ++ ⟨vd⟩).data = kd ++ '=' :: vd := by
    simp [strData_append, show ("=" : String).data = ['='] from rfl]
  unfold argKey splitEq
  rw [hdata, splitOnChar_sep _ _ _ h]
  simp

theorem argValue_sep (k v : String) (h : '=' ∉ k.data) :
    argValue (k ++ "=" ++ v) = jsTrim v := by
  rcases k with ⟨kd⟩
  rcases v with ⟨vd⟩
  have hdata : ((⟨kd⟩ : String) ++ "=" ++ ⟨vd⟩).data = kd ++ '=' :: vd := by
    simp [strData_append, show ("=" : String).data = ['='] from rfl]
  unfold argValue splitEq
  rw [hdata, splitOnChar_sep _ _ _ h]
  simp only [List.map_cons, List.tail_cons]
  rw [show ("=" : String) = (⟨['=']⟩ : String) from rfl, joinWith_splitOnChar]

theorem applyArgA_sep (hA : String → List HasItemFilter × List Warn) (ctx : Option JVec)
    (st : SelState) (k v : String) (h : '=' ∉ k.data) (hk : k ≠ "") :
    applyArgA hA ctx st (k ++ "=" ++ v)
      = dispatchA hA ctx st (jsTrim k) (stripQuotes (jsTrim v)) := by
  unfold applyArgA
  rw [argKey_sep _ _ h, argValue_sep _ _ h, if_neg hk]

theorem applyArgB_sep (jp : String → Except Unit JVal) (ctx : Option JVec)
    (st : SelState) (k v : String) (h : '=' ∉ k.data) (hk : k ≠ "") :
    applyArgB jp ctx st (k ++ "=" ++ v)
      = dispatchB jp ctx st (jsTrim k) (stripQuotes (jsTrim v)) := by
  unfold applyArgB
  rw [argKey_sep _ _ h, argValue_sep _ _ h, if_neg hk]

/-- C1: for every argument string, the tokenizer splits exactly at the
commas at which both the running brace depth and the running bracket depth
are zero (a comma nested inside braces or brackets stays inside its token),
each token is trimmed, and tokens that are empty after trimming are skipped
by the interpretation loop, so both interpreter variants process exactly the
nonempty trimmed top-level tokens in order. -/
theorem c1_tokenizer_top_level_commas (s : String) :
    parseArgTokens s = specTokens s
    ∧ (∀ hA ctx st, parseArgumentsA hA ctx st s = foldApplyA hA ctx st (specArgs s))
    ∧ (∀ jp ctx st, parseArgumentsB jp ctx st s = foldApplyB jp ctx st (specArgs s)) := by
  refine ⟨parseArgTokens_eq_specTokens s, ?_, ?_⟩
  · intro hA ctx st
    unfold parseArgumentsA foldApplyA
    rw [foldl_skip_empty, parseArgTokens_eq_specTokens s]
    rfl
  · intro jp ctx st
    unfold parseArgumentsB foldApplyB
    rw [foldl_skip_empty, parseArgTokens_eq_specTokens s]
    rfl

/-! ## Claim C2: range grammar -/

/-- C2 (amended): the shared range grammar maps `"5..10"`, `"..10"`,
`"5.."`, `"7"` to the claimed bounds; a string matching neither the range
pattern nor yielding an integer under `parseInt`'s leading-integer
semantics leaves both bounds unset; but a non-matching string with a
leading integer (such as `"5x"`) sets min = max to that leading integer
rather than leaving the bounds unset.  The `scores` interpreter path feeds
values through exactly this grammar. -/
theorem c2_range_grammar :
    rangeMinMax "5..10" = (some 5, some 10)
    ∧ rangeMinMax "..10" = (none, some 10)
    ∧ rangeMinMax "5.." = (some 5, none)
    ∧ rangeMinMax "7" = (some 7, some 7)
    ∧ (∀ s, rangeMatchSplit s = none → jsParseInt s = none → rangeMinMax s = (none, none))
    ∧ (∀ s n, rangeMatchSplit s = none → jsParseInt s = some n →
        rangeMinMax s = (some n, some n))
    ∧ (∀ jp ctx, (parseArgumentsB jp ctx {} "scores=\x7blevel=5..10\x7d").1.query.scoreOptions
        = some [{ objective := "level", minScore := some 5, maxScore := some 10 }]) := by
  refine ⟨by decide, by decide, by decide, by decide, ?_, ?_, ?_⟩
  · intro s h1 h2
    simp [rangeMinMax, h1, h2]
  · intro s n h1 h2
    simp [rangeMinMax, h1, h2]
  · intro jp ctx
    rfl

/-- C2 witness: the amended fallback clauses applied at concrete inputs. -/
theorem c2_range_grammar_witness :
    rangeMinMax "abc" = (none, none) ∧ rangeMinMax "5x" = (some 5, some 5) :=
  ⟨c2_range_grammar.2.2.2.2.1 "abc" (by decide) (by decide),
   c2_range_grammar.2.2.2.2.2.1 "5x" 5 (by decide) (by decide)⟩

/-- C2 counterexample: `"5x"` matches neither the range pattern nor a bare
integer, yet the code sets min = max = 5 (parseInt parses the leading
integer), contradicting the claim that both bounds are left unset. -/
theorem c2_range_counterexample :
    rangeMatchSplit "5x" = none ∧ bareIntLit "5x" = false
    ∧ rangeMinMax "5x" ≠ (none, none) := by decide

/-! ## Claim C10: first-equals splitting -/

/-- C10 (code-bug evidence): the interpreter splits a token at the first
`=` only — the key is everything before it and every later `=` stays in the
value (so `scores={level=5..10}` keeps its full value) — but a token with
no `=` at all is NOT skipped as malformed: both variants dispatch it with
the empty string as its value, here pushing an empty tag for the token
`tag`, with no warning emitted. -/
theorem c10_first_eq_split :
    (∀ k v : String, '=' ∉ k.data →
      argKey (k ++ "=" ++ v) = k ∧ argValue (k ++ "=" ++ v) = jsTrim v)
    ∧ argValue "scores=\x7blevel=5..10\x7d" = "\x7blevel=5..10\x7d"
    ∧ (∀ hA ctx, applyArgA hA ctx {} "tag"
        = ({ query := { tags := some [""] } }, []))
    ∧ (∀ jp ctx, applyArgB jp ctx {} "tag"
        = ({ query := { tags := some [""] } }, [])) := by
  refine ⟨?_, by decide, ?_, ?_⟩
  · intro k v h
    exact ⟨argKey_sep k v h, argValue_sep k v h⟩
  · intro hA ctx
    rfl
  · intro jp ctx
    rfl

/-- C10 witness: the split lemma applied at a concrete token. -/
theorem c10_first_eq_split_witness :
    argKey ("tag" ++ "=" ++ "a") = "tag" ∧ argValue ("tag" ++ "=" ++ "a") = jsTrim "a" :=
  c10_first_eq_split.1 "tag" "a" (by decide)

/-! ## Claim C4: type accumulation vs overwrite -/

theorem jsTrim_type : jsTrim "type" = "type" := by decide

/-- C4: a `type=!X` argument appends `X` to the exclusion list while a
plain `type=X` argument overwrites the single positive type, in both
variants; concretely, two negated types accumulate and of two positive
types the last one wins. -/
theorem c4_type_accumulate_overwrite :
    (∀ hA ctx st (v : String),
      applyArgA hA ctx st ("type" ++ "=" ++ v)
        = if strStarts (stripQuotes (jsTrim v)) "!" then
            ({ st with query := { st.query with
                excludeTypes := some ((st.query.excludeTypes.getD []) ++
                  [strDrop (stripQuotes (jsTrim v)) 1]) } },
             [])
          else
            ({ st with query := { st.query with
                type := some (stripQuotes (jsTrim v)) } },
             []))
    ∧ (∀ jp ctx st (v : String),
      applyArgB jp ctx st ("type" ++ "=" ++ v)
        = if strStarts (stripQuotes (jsTrim v)) "!" then
            ({ st with query := { st.query with
                excludeTypes := some ((st.query.excludeTypes.getD []) ++
                  [strDrop (stripQuotes (jsTrim v)) 1]) } },
             [])
          else
            ({ st with query := { st.query with
                type := some (stripQuotes (jsTrim v)) } },
             []))
    ∧ (∀ hA ctx,
      (parseArgumentsA hA ctx {} "type=!minecraft:pig,type=!minecraft:cow").1.query.excludeTypes
        = some ["minecraft:pig", "minecraft:cow"]
      ∧ (parseArgumentsA hA ctx {} "type=minecraft:pig,type=minecraft:cow").1.query.type
        = some "minecraft:cow")
    ∧ (∀ jp ctx,
      (parseArgumentsB jp ctx {} "type=!minecraft:pig,type=!minecraft:cow").1.query.excludeTypes
        = some ["minecraft:pig", "minecraft:cow"]
      ∧ (parseArgumentsB jp ctx {} "type=minecraft:pig,type=minecraft:cow").1.query.type
        = some "minecraft:cow") := by
  refine ⟨?_, ?_, ?_, ?_⟩
  · intro hA ctx st v
    rw [applyArgA_sep hA ctx st "type" v (by decide) (by decide), jsTrim_type]
    rfl
  · intro jp ctx st v
    rw [applyArgB_sep jp ctx st "type" v (by decide) (by decide), jsTrim_type]
    rfl
  · intro hA ctx
    exact ⟨rfl, rfl⟩
  · intro jp ctx
    exact ⟨rfl, rfl⟩

/-! ## Claim C5: rotation keys -/

/-- C5 (amended): in the `part_000` interpreter the keys `rx`, `rxm`, `ry`,
`rym` are recognized and set the max-pitch, min-pitch, max-yaw and min-yaw
bounds respectively; in the `EntitySelectorParser.ts` interpreter these four
keys are NOT in the recognized set — they fall through to the unknown-key
branch, which leaves the query unchanged and emits a warning. -/
theorem c5_rotation_keys :
    (∀ jp ctx st (v : String),
      applyArgB jp ctx st ("rx" ++ "=" ++ v)
        = ({ st with query := { st.query with
            maxVerticalRotation := some (jsParseFloat (stripQuotes (jsTrim v))) } },
           [])
      ∧ applyArgB jp ctx st ("rxm" ++ "=" ++ v)
        = ({ st with query := { st.query with
            minVerticalRotation := some (jsParseFloat (stripQuotes (jsTrim v))) } },
           [])
      ∧ applyArgB jp ctx st ("ry" ++ "=" ++ v)
        = ({ st with query := { st.query with
            maxHorizontalRotation := some (jsParseFloat (stripQuotes (jsTrim v))) } },
           [])
      ∧ applyArgB jp ctx st ("rym" ++ "=" ++ v)
        = ({ st with query := { st.query with
            minHorizontalRotation := some (jsParseFloat (stripQuotes (jsTrim v))) } },
           []))
    ∧ (∀ hA ctx st (v : String),
      applyArgA hA ctx st ("rx" ++ "=" ++ v) = (st, [Warn.unsupportedKey "rx"])
      ∧ applyArgA hA ctx st ("rxm" ++ "=" ++ v) = (st, [Warn.unsupportedKey "rxm"])
      ∧ applyArgA hA ctx st ("ry" ++ "=" ++ v) = (st, [Warn.unsupportedKey "ry"])
      ∧ applyArgA hA ctx st ("rym" ++ "=" ++ v) = (st, [Warn.unsupportedKey "rym"])) := by
  constructor
  · intro jp ctx st v
    refine ⟨?_, ?_, ?_, ?_⟩
    · rw [applyArgB_sep jp ctx st "rx" v (by decide) (by decide),
        show jsTrim "rx" = "rx" from by decide]
      rfl
    · rw [applyArgB_sep jp ctx st "rxm" v (by decide) (by decide),
        show jsTrim "rxm" = "rxm" from by decide]
      rfl
    · rw [applyArgB_sep jp ctx st "ry" v (by decide) (by decide),
        show jsTrim "ry" = "ry" from by decide]
      rfl
    · rw [applyArgB_sep jp ctx st "rym" v (by decide) (by decide),
        show jsTrim "rym" = "rym" from by decide]
      rfl
  · intro hA ctx st v
    refine ⟨?_, ?_, ?_, ?_⟩
    · rw [applyArgA_sep hA ctx st "rx" v (by decide) (by decide),
        show jsTrim "rx" = "rx" from by decide]
      rfl
    · rw [applyArgA_sep hA ctx st "rxm" v (by decide) (by decide),
        show jsTrim "rxm" = "rxm" from by decide]
      rfl
    · rw [applyArgA_sep hA ctx st "ry" v (by decide) (by decide),
        show jsTrim "ry" = "ry" from by decide]
      rfl
    · rw [applyArgA_sep hA ctx st "rym" v (by decide) (by decide),
        show jsTrim "rym" = "rym" from by decide]
      rfl

/-- C5 counterexample: variant A treats `rx` as an unknown key — the state
is unchanged and an unsupported-key warning is emitted — contradicting the
claim that `rx` is never treated as an unknown key that is ignored with a
warning. -/
theorem c5_rotation_keys_counterexample :
    applyArgA (fun _ => ([], [])) none {} "rx=5" = ({}, [Warn.unsupportedKey "rx"]) := by
  decide

/-! ## Claim C3: x/y/z origin composition -/

theorem xyzAuxA_none (hA : String → List HasItemFilter × List Warn) (ctx : Option JVec)
    (st : SelState) (v : String) (ax : Axis) (hloc : st.query.location = none) :
    applyArgA hA ctx st (axisKey ax ++ "=" ++ v)
      = ({ st with query := { st.query with
          location := some (setJVecAxis
            { x := ctxAxis ctx .X, y := ctxAxis ctx .Y, z := ctxAxis ctx .Z }
            ax (jsParseFloat (stripQuotes (jsTrim v)))) } },
         []) := by
  cases ax
  · rw [show axisKey Axis.X = "x" from rfl,
      applyArgA_sep hA ctx st "x" v (by decide) (by decide),
      show jsTrim "x" = "x" from by decide]
    show ({ st with query := xyzCaseA ctx st.query .X (jsParseFloat (stripQuotes (jsTrim v))) },
      ([] : List Warn)) = _
    rw [xyzCaseA, hloc]
    rfl
  · rw [show axisKey Axis.Y = "y" from rfl,
      applyArgA_sep hA ctx st "y" v (by decide) (by decide),
      show jsTrim "y" = "y" from by decide]
    show ({ st with query := xyzCaseA ctx st.query .Y (jsParseFloat (stripQuotes (jsTrim v))) },
      ([] : List Warn)) = _
    rw [xyzCaseA, hloc]
    rfl
  · rw [show axisKey Axis.Z = "z" from rfl,
      applyArgA_sep hA ctx st "z" v (by decide) (by decide),
      show jsTrim "z" = "z" from by decide]
    show ({ st with query := xyzCaseA ctx st.query .Z (jsParseFloat (stripQuotes (jsTrim v))) },
      ([] : List Warn)) = _
    rw [xyzCaseA, hloc]
    rfl

theorem xyzAuxA_some (hA : String → List HasItemFilter × List Warn) (ctx : Option JVec)
    (st : SelState) (v : String) (ax : Axis) (lv : JVec) (hloc : st.query.location = some lv) :
    applyArgA hA ctx st (axisKey ax ++ "=" ++ v)
      = ({ st with query := { st.query with
          location := some (setJVecAxis lv ax (jsParseFloat (stripQuotes (jsTrim v)))) } },
         []) := by
  cases ax
  · rw [show axisKey Axis.X = "x" from rfl,
      applyArgA_sep hA ctx st "x" v (by decide) (by decide),
      show jsTrim "x" = "x" from by decide]
    show ({ st with query := xyzCaseA ctx st.query .X (jsParseFloat (stripQuotes (jsTrim v))) },
      ([] : List Warn)) = _
    rw [xyzCaseA, hloc]
  · rw [show axisKey Axis.Y = "y" from rfl,
      applyArgA_sep hA ctx st "y" v (by decide) (by decide),
      show jsTrim "y" = "y" from by decide]
    show ({ st with query := xyzCaseA ctx st.query .Y (jsParseFloat (stripQuotes (jsTrim v))) },
      ([] : List Warn)) = _
    rw [xyzCaseA, hloc]
  · rw [show axisKey Axis.Z = "z" from rfl,
      applyArgA_sep hA ctx st "z" v (by decide) (by decide),
      show jsTrim "z" = "z" from by decide]
    show ({ st with query := xyzCaseA ctx st.query .Z (jsParseFloat (stripQuotes (jsTrim v))) },
      ([] : List Warn)) = _
    rw [xyzCaseA, hloc]

theorem xyzAuxB_none (jp : String → Except Unit JVal) (ctx : Option JVec)
    (st : SelState) (v : String) (ax : Axis) (hloc : st.query.location = none) :
    applyArgB jp ctx st (axisKey ax ++ "=" ++ v)
      = ({ st with query := { st.query with
          location := some (setJVecAxis
            { x := ctxAxis ctx .X, y := ctxAxis ctx .Y, z := ctxAxis ctx .Z }
            ax (jsParseFloat (stripQuotes (jsTrim v)))) } },
         []) := by
  cases ax
  · rw [show axisKey Axis.X = "x" from rfl,
      applyArgB_sep jp ctx st "x" v (by decide) (by decide),
      show jsTrim "x" = "x" from by decide]
    show ({ st with query := xyzCaseB ctx st.query .X (jsParseFloat (stripQuotes (jsTrim v))) },
      ([] : List Warn)) = _
    rw [xyzCaseB, hloc]
  · rw [show axisKey Axis.Y = "y" from rfl,
      applyArgB_sep jp ctx st "y" v (by decide) (by decide),
      show jsTrim "y" = "y" from by decide]
    show ({ st with query := xyzCaseB ctx st.query .Y (jsParseFloat (stripQuotes (jsTrim v))) },
      ([] : List Warn)) = _
    rw [xyzCaseB, hloc]
  · rw [show axisKey Axis.Z = "z" from rfl,
      applyArgB_sep jp ctx st "z" v (by decide) (by decide),
      show jsTrim "z" = "z" from by decide]
    show ({ st with query := xyzCaseB ctx st.query .Z (jsParseFloat (stripQuotes (jsTrim v))) },
      ([] : List Warn)) = _
    rw [xyzCaseB, hloc]

theorem xyzAuxB_some (jp : String → Except Unit JVal) (ctx : Option JVec)
    (st : SelState) (v : String) (ax : Axis) (lv : JVec) (hloc : st.query.location = some lv) :
    applyArgB jp ctx st (axisKey ax ++ "=" ++ v)
      = ({ st with query := { st.query with
          location := some (setJVecAxis lv ax (jsParseFloat (stripQuotes (jsTrim v)))) } },
         []) := by
  cases ax
  · rw [show axisKey Axis.X = "x" from rfl,
      applyArgB_sep jp ctx st "x" v (by decide) (by decide),
      show jsTrim "x" = "x" from by decide]
    show ({ st with query := xyzCaseB ctx st.query .X (jsParseFloat (stripQuotes (jsTrim v))) },
      ([] : List Warn)) = _
    rw [xyzCaseB, hloc]
  · rw [show axisKey Axis.Y = "y" from rfl,
      applyArgB_sep jp ctx st "y" v (by decide) (by decide),
      show jsTrim "y" = "y" from by decide]
    show ({ st with query := xyzCaseB ctx st.query .Y (jsParseFloat (stripQuotes (jsTrim v))) },
      ([] : List Warn)) = _
    rw [xyzCaseB, hloc]
  · rw [show axisKey Axis.Z = "z" from rfl,
      applyArgB_sep jp ctx st "z" v (by decide) (by decide),
      show jsTrim "z" = "z" from by decide]
    show ({ st with query := xyzCaseB ctx st.query .Z (jsParseFloat (stripQuotes (jsTrim v))) },
      ([] : List Warn)) = _
    rw [xyzCaseB, hloc]

theorem c3ConcreteA (hA : String → List HasItemFilter × List Warn) (cx cy cz : ℚ) :
    (parseArgumentsA hA (some { x := some cx, y := some cy, z := some cz }) {} "y=10").1.query.location
      = some { x := some cx, y := some 10, z := some cz } := by
  unfold parseArgumentsA
  rw [show parseArgTokens "y=10" = ["y=10"] from by decide]
  simp only [List.foldl_cons, List.foldl_nil]
  rw [if_neg (show ¬("y=10" : String) = "" from by decide)]
  rw [show ("y=10" : String) = "y" ++ "=" ++ "10" from by decide,
    show ("y" : String) = axisKey Axis.Y from rfl]
  rw [xyzAuxA_none hA (some { x := some cx, y := some cy, z := some cz }) {} "10" Axis.Y rfl]
  simp only [setJVecAxis, ctxAxis]
  rw [show jsParseFloat (stripQuotes (jsTrim "10")) = some 10 from by decide]

theorem c3ConcreteB (jp : String → Except Unit JVal) (cx cy cz : ℚ) :
    (parseArgumentsB jp (some { x := some cx, y := some cy, z := some cz }) {} "y=10").1.query.location
      = some { x := some cx, y := some 10, z := some cz } := by
  unfold parseArgumentsB
  rw [show parseArgTokens "y=10" = ["y=10"] from by decide]
  simp only [List.foldl_cons, List.foldl_nil]
  rw [if_neg (show ¬("y=10" : String) = "" from by decide)]
  rw [show ("y=10" : String) = "y" ++ "=" ++ "10" from by decide,
    show ("y" : String) = axisKey Axis.Y from rfl]
  rw [xyzAuxB_none jp (some { x := some cx, y := some cy, z := some cz }) {} "10" Axis.Y rfl]
  simp only [setJVecAxis, ctxAxis]
  rw [show jsParseFloat (stripQuotes (jsTrim "10")) = some 10 from by decide]

/-- C3: the first `x`/`y`/`z` argument initializes the query origin to the
execution-context location (or zero on each axis without a context
location) and sets its own axis to the parsed value; each later `x`/`y`/`z`
argument overwrites only its own axis (both variants).  Concretely, a
selector specifying only `y=10` under context location `(cx, cy, cz)`
produces the origin `(cx, 10, cz)`. -/
theorem c3_xyz_origin :
    (∀ hA ctx st (v : String) (ax : Axis), st.query.location = none →
      applyArgA hA ctx st (axisKey ax ++ "=" ++ v)
        = ({ st with query := { st.query with
            location := some (setJVecAxis
              { x := ctxAxis ctx .X, y := ctxAxis ctx .Y, z := ctxAxis ctx .Z }
              ax (jsParseFloat (stripQuotes (jsTrim v)))) } },
           []))
    ∧ (∀ hA ctx st (v : String) (ax : Axis) (lv : JVec), st.query.location = some lv →
      applyArgA hA ctx st (axisKey ax ++ "=" ++ v)
        = ({ st with query := { st.query with
            location := some (setJVecAxis lv ax (jsParseFloat (stripQuotes (jsTrim v)))) } },
           []))
    ∧ (∀ jp ctx st (v : String) (ax : Axis), st.query.location = none →
      applyArgB jp ctx st (axisKey ax ++ "=" ++ v)
        = ({ st with query := { st.query with
            location := some (setJVecAxis
              { x := ctxAxis ctx .X, y := ctxAxis ctx .Y, z := ctxAxis ctx .Z }
              ax (jsParseFloat (stripQuotes (jsTrim v)))) } },
           []))
    ∧ (∀ jp ctx st (v : String) (ax : Axis) (lv : JVec), st.query.location = some lv →
      applyArgB jp ctx st (axisKey ax ++ "=" ++ v)
        = ({ st with query := { st.query with
            location := some (setJVecAxis lv ax (jsParseFloat (stripQuotes (jsTrim v)))) } },
           []))
    ∧ (∀ hA jp (cx cy cz : ℚ),
      (parseArgumentsA hA (some { x := some cx, y := some cy, z := some cz }) {} "y=10").1.query.location
        = some { x := some cx, y := some 10, z := some cz }
      ∧ (parseArgumentsB jp (some { x := some cx, y := some cy, z := some cz }) {} "y=10").1.query.location
        = some { x := some cx, y := some 10, z := some cz }) :=
  ⟨fun hA ctx st v ax hloc => xyzAuxA_none hA ctx st v ax hloc,
   fun hA ctx st v ax lv hloc => xyzAuxA_some hA ctx st v ax lv hloc,
   fun jp ctx st v ax hloc => xyzAuxB_none jp ctx st v ax hloc,
   fun jp ctx st v ax lv hloc => xyzAuxB_some jp ctx st v ax lv hloc,
   fun hA jp cx cy cz => ⟨c3ConcreteA hA cx cy cz, c3ConcreteB jp cx cy cz⟩⟩

/-- C3 witness: the lazy-initialization clause applied at a concrete
argument under a concrete context. -/
theorem c3_xyz_origin_witness :
    applyArgB (fun _ => .error ()) (some { x := some 1, y := some 2, z := some 3 }) {}
        (axisKey Axis.Y ++ "=" ++ "10")
      = ({ query := { location := some { x := some 1, y := some 10, z := some 3 } } }, []) := by
  rw [c3_xyz_origin.2.2.1 (fun _ => .error ())
    (some { x := some 1, y := some 2, z := some 3 }) {} "10" Axis.Y rfl]
  decide

/-! ## Claim C6: volume containment -/

/-- Specification-side box membership from the claim's words: on each axis
the position lies in the half-open box from the origin to origin + volume
(direction-independent), where a zero-extent axis spans exactly one unit. -/
def axisInBox (o v p : ℚ) : Prop :=
  min o (o + v) ≤ p ∧ p < (if v = 0 then min o (o + v) + 1 else max o (o + v))

theorem isWithinVolume_iff (px py pz ox oy oz vx vy vz : ℚ) :
    isWithinVolume { x := some px, y := some py, z := some pz }
        { x := some ox, y := some oy, z := some oz }
        { x := some vx, y := some vy, z := some vz } = true
      ↔ (axisInBox ox vx px ∧ axisInBox oy vy py ∧ axisInBox oz vz pz) := by
  by_cases hvx : vx = 0 <;> by_cases hvy : vy = 0 <;> by_cases hvz : vz = 0 <;>
    simp [isWithinVolume, jmin, jmax, jadd, jge, jlt, axisInBox, hvx, hvy, hvz,
      Bool.and_eq_true, decide_eq_true_eq, ge_iff_le, and_assoc, min_def, max_def]

/-- C6: the volume filter accepts a position iff it lies in the axis-aligned
box from the origin to origin + volume with a half-open upper bound on each
axis, a zero-extent axis spanning exactly one unit; concretely, with origin
`(0,0,0)` and volume `(0,0,2)` the position `(0,0,0)` matches while
`(0,0,2)` and `(0,1,0)` do not. -/
theorem c6_volume_box :
    (∀ px py pz ox oy oz vx vy vz : ℚ,
      isWithinVolume { x := some px, y := some py, z := some pz }
          { x := some ox, y := some oy, z := some oz }
          { x := some vx, y := some vy, z := some vz } = true
        ↔ (axisInBox ox vx px ∧ axisInBox oy vy py ∧ axisInBox oz vz pz))
    ∧ isWithinVolume { x := some 0, y := some 0, z := some 0 }
        { x := some 0, y := some 0, z := some 0 }
        { x := some 0, y := some 0, z := some 2 } = true
    ∧ isWithinVolume { x := some 0, y := some 0, z := some 2 }
        { x := some 0, y := some 0, z := some 0 }
        { x := some 0, y := some 0, z := some 2 } = false
    ∧ isWithinVolume { x := some 0, y := some 1, z := some 0 }
        { x := some 0, y := some 0, z := some 0 }
        { x := some 0, y := some 0, z := some 2 } = false := by
  refine ⟨isWithinVolume_iff, ?_, ?_, ?_⟩
  · exact (isWithinVolume_iff 0 0 0 0 0 0 0 0 2).mpr (by norm_num [axisInBox])
  · rw [Bool.eq_false_iff]
    intro hb
    have hax := (isWithinVolume_iff 0 0 2 0 0 0 0 0 2).mp hb
    norm_num [axisInBox] at hax
  · rw [Bool.eq_false_iff]
    intro hb
    have hax := (isWithinVolume_iff 0 1 0 0 0 0 0 0 2).mp hb
    norm_num [axisInBox] at hax

/-! ## Claim C9: evaluation does not mutate parsed state -/

/-- C9: `getEntities` never mutates the parsed selector instance — the
symbol, query options and hasitem filters after any call are exactly the
construction-time values (symbol-specific overrides act on a per-call
copy), so a repeated evaluation runs against the same parsed constraints
(both variants). -/
theorem c9_eval_preserves_state :
    ∀ env rng inst,
      (getEntitiesA env rng inst).2.1 = inst
      ∧ (getEntitiesB env rng inst).2.1 = inst
      ∧ getEntitiesA env rng ((getEntitiesA env rng inst).2.1) = getEntitiesA env rng inst
      ∧ getEntitiesB env rng ((getEntitiesB env rng inst).2.1) = getEntitiesB env rng inst := by
  intro env rng inst
  have hA : (getEntitiesA env rng inst).2.1 = inst := rfl
  have hB : (getEntitiesB env rng inst).2.1 = inst := by
    unfold getEntitiesB
    split
    · rcases inst.executor with _ | ex <;> rfl
    · rfl
  exact ⟨hA, hB, by rw [hA], by rw [hB]⟩

/-! ## Claim C8: malformed hasitem values -/

theorem hasitemCaseB_unbalanced_array (jp : String → Except Unit JVal) (v : String)
    (h1 : strStarts v "[" = true) (h2 : strEnds v "]" = false) :
    hasitemCaseB jp v = ([], [.hasitemParseFail]) := by
  unfold hasitemCaseB hasitemParsedB
  rw [if_pos h1, if_pos h2]

theorem hasitemCaseB_unbalanced_object (jp : String → Except Unit JVal) (v : String)
    (h0 : strStarts v "[" = false) (h1 : strStarts v "\x7b" = true)
    (h2 : strEnds v "\x7d" = false) :
    hasitemCaseB jp v = ([], [.hasitemParseFail]) := by
  unfold hasitemCaseB hasitemParsedB
  rw [if_neg (by simp [h0]), if_pos h1, if_pos h2]

theorem hasitemCaseA_parse_error (v : String)
    (h2 : exceptErrored (jsonParseModel (jsonCompliantA v)) = true)
    (h1 : strStarts (jsonCompliantA v) "[" = true ∨
      strStarts (jsonCompliantA v) "\x7b" = true) :
    hasitemCaseA v = ([], [.hasitemParseFail]) := by
  rcases hjp : jsonParseModel (jsonCompliantA v) with u | j
  · by_cases hb : strStarts (jsonCompliantA v) "[" = true
    · simp [hasitemCaseA, hb, hjp]
    · rcases h1 with h1 | h1
      · exact absurd h1 hb
      · simp [hasitemCaseA, hb, h1, hjp]
  · rw [hjp] at h2
    simp [exceptErrored] at h2

theorem hasitemCaseA_bad_format (v : String)
    (h0 : strStarts (jsonCompliantA v) "[" = false)
    (h1 : strStarts (jsonCompliantA v) "\x7b" = false) :
    hasitemCaseA v = ([], [.hasitemBadFormat]) := by
  simp [hasitemCaseA, h0, h1]

/-- C8 (amended): a `hasitem` value that fails before item decoding leaves
`hasItemFilters` empty with a single non-fatal warning in both variants —
in `part_000` any unbalanced-bracket value (array value not ending in a
bracket, object value not ending in a brace), in `EntitySelectorParser.ts`
any value whose normalized form has a bad top-level shape or is rejected by
JSON.parse (which covers the unbalanced-bracket values, as the end-to-end
run on `type=minecraft:pig,hasitem=[` + `item=minecraft:apple` shows) — and
every other argument of the same selector still takes effect.  But in
`EntitySelectorParser.ts` a decode failure in the middle of the item list
keeps the filters pushed before the failing element: on
`type=minecraft:pig,hasitem=[1,null]` the type argument applies, the
JSON-failure warning is emitted, and `hasItemFilters` retains the default
filter decoded for the element 1 (see the counterexample). -/
theorem c8_malformed_hasitem :
    (∀ jp ctx st (v : String),
      strStarts (stripQuotes (jsTrim v)) "[" = true →
      strEnds (stripQuotes (jsTrim v)) "]" = false →
      applyArgB jp ctx st ("hasitem" ++ "=" ++ v) = (st, [Warn.hasitemParseFail]))
    ∧ (∀ jp ctx st (v : String),
      strStarts (stripQuotes (jsTrim v)) "[" = false →
      strStarts (stripQuotes (jsTrim v)) "\x7b" = true →
      strEnds (stripQuotes (jsTrim v)) "\x7d" = false →
      applyArgB jp ctx st ("hasitem" ++ "=" ++ v) = (st, [Warn.hasitemParseFail]))
    ∧ (∀ jp ctx,
      parseArgumentsB jp ctx {} "type=minecraft:pig,hasitem=[\x7bitem=minecraft:apple\x7d"
        = ({ query := { type := some "minecraft:pig" } }, [Warn.hasitemParseFail]))
    ∧ (∀ ctx st (v : String),
      exceptErrored (jsonParseModel (jsonCompliantA (stripQuotes (jsTrim v)))) = true →
      (strStarts (jsonCompliantA (stripQuotes (jsTrim v))) "[" = true ∨
        strStarts (jsonCompliantA (stripQuotes (jsTrim v))) "\x7b" = true) →
      applyArgA hasitemCaseA ctx st ("hasitem" ++ "=" ++ v) = (st, [Warn.hasitemParseFail]))
    ∧ (∀ ctx st (v : String),
      strStarts (jsonCompliantA (stripQuotes (jsTrim v))) "[" = false →
      strStarts (jsonCompliantA (stripQuotes (jsTrim v))) "\x7b" = false →
      applyArgA hasitemCaseA ctx st ("hasitem" ++ "=" ++ v) = (st, [Warn.hasitemBadFormat]))
    ∧ (∀ ctx,
      parseArgumentsA hasitemCaseA ctx {}
          "type=minecraft:pig,hasitem=[\x7bitem=minecraft:apple\x7d"
        = ({ query := { type := some "minecraft:pig" } }, [Warn.hasitemParseFail]))
    ∧ (∀ ctx,
      parseArgumentsA hasitemCaseA ctx {} "type=minecraft:pig,hasitem=[1,null]"
        = ({ query := { type := some "minecraft:pig" },
             hasItemFilters := [{ quantity := some { min := some 1 } }] },
           [Warn.hasitemParseFail])) := by
  refine ⟨?_, ?_, ?_, ?_, ?_, ?_, ?_⟩
  · intro jp ctx st v h1 h2
    rw [applyArgB_sep jp ctx st "hasitem" v (by decide) (by decide),
      show jsTrim "hasitem" = "hasitem" from by decide]
    show ({ st with hasItemFilters :=
        st.hasItemFilters ++ (hasitemCaseB jp (stripQuotes (jsTrim v))).1 },
      (hasitemCaseB jp (stripQuotes (jsTrim v))).2) = _
    rw [hasitemCaseB_unbalanced_array jp _ h1 h2]
    simp
  · intro jp ctx st v h0 h1 h2
    rw [applyArgB_sep jp ctx st "hasitem" v (by decide) (by decide),
      show jsTrim "hasitem" = "hasitem" from by decide]
    show ({ st with hasItemFilters :=
        st.hasItemFilters ++ (hasitemCaseB jp (stripQuotes (jsTrim v))).1 },
      (hasitemCaseB jp (stripQuotes (jsTrim v))).2) = _
    rw [hasitemCaseB_unbalanced_object jp _ h0 h1 h2]
    simp
  · intro jp ctx
    rfl
  · intro ctx st v h2 h1
    rw [applyArgA_sep hasitemCaseA ctx st "hasitem" v (by decide) (by decide),
      show jsTrim "hasitem" = "hasitem" from by decide]
    show ({ st with hasItemFilters :=
        st.hasItemFilters ++ (hasitemCaseA (stripQuotes (jsTrim v))).1 },
      (hasitemCaseA (stripQuotes (jsTrim v))).2) = _
    rw [hasitemCaseA_parse_error _ h2 h1]
    simp
  · intro ctx st v h0 h1
    rw [applyArgA_sep hasitemCaseA ctx st "hasitem" v (by decide) (by decide),
      show jsTrim "hasitem" = "hasitem" from by decide]
    show ({ st with hasItemFilters :=
        st.hasItemFilters ++ (hasitemCaseA (stripQuotes (jsTrim v))).1 },
      (hasitemCaseA (stripQuotes (jsTrim v))).2) = _
    rw [hasitemCaseA_bad_format _ h0 h1]
    simp
  · intro ctx
    rfl
  · intro ctx
    rfl

/-- C8 witness: the part_000 unbalanced-array clause and the
EntitySelectorParser.ts JSON-rejection clause, each applied at the same
concrete unbalanced value. -/
theorem c8_malformed_hasitem_witness :
    (applyArgB (fun _ => .error ()) none {}
        ("hasitem" ++ "=" ++ "[\x7bitem=minecraft:apple\x7d")
      = ({}, [Warn.hasitemParseFail]))
    ∧ (applyArgA hasitemCaseA none {}
        ("hasitem" ++ "=" ++ "[\x7bitem=minecraft:apple\x7d")
      = ({}, [Warn.hasitemParseFail])) :=
  ⟨c8_malformed_hasitem.1 (fun _ => .error ()) none {} "[\x7bitem=minecraft:apple\x7d"
      (by decide) (by decide),
    c8_malformed_hasitem.2.2.2.1 none {} "[\x7bitem=minecraft:apple\x7d"
      (by decide) (Or.inl (by decide))⟩

/-- C8 counterexample: in `EntitySelectorParser.ts`, the argument list
`hasitem=[1,null]` carries a malformed hasitem value in the claim's sense
(the item list fails to decode — property access on the null element throws
— and the parser emits its non-fatal JSON-failure warning), yet parsing
completes with `hasItemFilters` holding the default filter already pushed
for the element 1: the push precedes the throw inside the try block, so
`hasItemFilters` is not empty, contradicting the claim. -/
theorem c8_malformed_hasitem_counterexample :
    (parseArgumentsA hasitemCaseA none {} "hasitem=[1,null]").2 = [Warn.hasitemParseFail]
    ∧ (parseArgumentsA hasitemCaseA none {} "hasitem=[1,null]").1.hasItemFilters
        = [{ quantity := some { min := some 1 } }]
    ∧ (parseArgumentsA hasitemCaseA none {} "hasitem=[1,null]").1.hasItemFilters ≠ [] := by
  decide

/-! ## Claim C7: random sampling without replacement -/

theorem get_not_mem_eraseIdx {α : Type} :
    ∀ (l : List α) (i : ℕ) (h : i < l.length), l.Nodup → l.get ⟨i, h⟩ ∉ l.eraseIdx i := by
  intro l
  induction l with
  | nil => intro i h; simp at h
  | cons a t ih =>
    intro i h hnd
    cases i with
    | zero =>
      simp only [List.eraseIdx, List.get]
      exact (List.nodup_cons.mp hnd).1
    | succ j =>
      simp only [List.eraseIdx, List.get]
      intro hmem
      rcases List.mem_cons.mp hmem with heq | hmem2
      · exact (List.nodup_cons.mp hnd).1 (heq ▸ List.get_mem t j (Nat.lt_of_succ_lt_succ h))
      · exact ih j (Nat.lt_of_succ_lt_succ h) (List.nodup_cons.mp hnd).2 hmem2

theorem sampleGo_spec (rng : Nat → ℚ) (hr : ∀ j, 0 ≤ rng j ∧ rng j < 1) :
    ∀ (k : ℕ) (i : ℕ) (pool acc : List EntityRec), pool.Nodup → acc.Nodup →
      (∀ a ∈ pool, a ∉ acc) →
      (sampleGo rng k i pool acc).length = acc.length + min k pool.length
      ∧ (∀ e ∈ sampleGo rng k i pool acc, e ∈ acc ∨ e ∈ pool)
      ∧ (sampleGo rng k i pool acc).Nodup := by
  intro k
  induction k with
  | zero =>
    intro i pool acc _ hacc _
    refine ⟨by simp [sampleGo], ?_, by simpa [sampleGo] using hacc⟩
    intro e he
    simp only [sampleGo] at he
    exact Or.inl he
  | succ m ih =>
    intro i pool acc hpool hacc hdisj
    by_cases hp : pool.length > 0
    · have h0 : (0:ℚ) ≤ rng i * (pool.length : ℚ) := by
        have := (hr i).1
        positivity
      have h1 : rng i * (pool.length : ℚ) < (pool.length : ℚ) := by
        have hl : (0:ℚ) < (pool.length : ℚ) := by exact_mod_cast hp
        calc rng i * (pool.length : ℚ) < 1 * (pool.length : ℚ) :=
              mul_lt_mul_of_pos_right (hr i).2 hl
          _ = (pool.length : ℚ) := one_mul _
      have hfl0 : 0 ≤ Int.floor (rng i * (pool.length : ℚ)) := Int.floor_nonneg.mpr h0
      have hflt : Int.floor (rng i * (pool.length : ℚ)) < (pool.length : ℤ) := by
        apply Int.floor_lt.mpr
        exact_mod_cast h1
      have hidx : (Int.floor (rng i * (pool.length : ℚ))).toNat < pool.length := by
        have h2 : ((Int.floor (rng i * (pool.length : ℚ))).toNat : ℤ)
            = Int.floor (rng i * (pool.length : ℚ)) := Int.toNat_of_nonneg hfl0
        omega
      have hget : pool.get? (Int.floor (rng i * (pool.length : ℚ))).toNat
          = some (pool.get ⟨(Int.floor (rng i * (pool.length : ℚ))).toNat, hidx⟩) :=
        List.get?_eq_get hidx
      have hstep : sampleGo rng (m + 1) i pool acc
          = sampleGo rng m (i + 1)
              (pool.eraseIdx (Int.floor (rng i * (pool.length : ℚ))).toNat)
              (acc ++ [pool.get ⟨(Int.floor (rng i * (pool.length : ℚ))).toNat, hidx⟩]) := by
        simp only [sampleGo, if_pos hp, hget]
      set idx := (Int.floor (rng i * (pool.length : ℚ))).toNat
      set e := pool.get ⟨idx, hidx⟩ with hedef
      set pool' := pool.eraseIdx idx with hpooldef
      have he : e ∈ pool := List.get_mem pool idx hidx
      have hsub : pool' ⊆ pool := (List.eraseIdx_sublist pool idx).subset
      have hpool' : pool'.Nodup := hpool.sublist (List.eraseIdx_sublist pool idx)
      have hacc' : (acc ++ [e]).Nodup := by
        simp [List.nodup_append, hacc, hdisj e he]
      have hnotmem : e ∉ pool' := get_not_mem_eraseIdx pool idx hidx hpool
      have hdisj' : ∀ a ∈ pool', a ∉ acc ++ [e] := by
        intro a ha
        simp only [List.mem_append, List.mem_singleton]
        rintro (hin | rfl)
        · exact hdisj a (hsub ha) hin
        · exact hnotmem ha
      have hlen' : pool'.length = pool.length - 1 := by
        rw [hpooldef, List.length_eraseIdx]
        simp [hidx]
      obtain ⟨ihlen, ihmem, ihnd⟩ := ih (i + 1) pool' (acc ++ [e]) hpool' hacc' hdisj'
      rw [hstep]
      refine ⟨?_, ?_, ihnd⟩
      · rw [ihlen]
        simp only [List.length_append, List.length_singleton]
        omega
      · intro x hx
        rcases ihmem x hx with hx1 | hx2
        · rcases List.mem_append.mp hx1 with hxa | hxe
          · exact Or.inl hxa
          · right
            rw [List.mem_singleton.mp hxe]
            exact he
        · exact Or.inr (hsub hx2)
    · have hnil : pool = [] := List.length_eq_zero.mp (by omega)
      subst hnil
      refine ⟨by simp [sampleGo], ?_, by simpa [sampleGo] using hacc⟩
      intro x hx
      simp only [sampleGo] at hx
      simp at hx
      exact Or.inl hx

theorem randomSample_spec (rng : Nat → ℚ) (hr : ∀ j, 0 ≤ rng j ∧ rng j < 1)
    (N : ℕ) (pool : List EntityRec) (hpool : pool.Nodup) (hle : N ≤ pool.length) :
    (randomSample rng (N : Int) pool).length = N
    ∧ (∀ e ∈ randomSample rng (N : Int) pool, e ∈ pool)
    ∧ (randomSample rng (N : Int) pool).Nodup := by
  unfold randomSample
  have ht : ((N : Int)).toNat = N := Int.toNat_ofNat N
  rw [ht]
  obtain ⟨hl, hm, hn⟩ := sampleGo_spec rng hr N 0 pool [] hpool (by simp) (by simp)
  refine ⟨?_, ?_, hn⟩
  · rw [hl]
    simp [Nat.min_eq_left hle]
  · intro x hx
    rcases hm x hx with h | h
    · simp at h
    · exact h

/-- C7: for an `@r` selector with `c = N` (`N > 0`), no score constraints,
no volume filter and no item filters, over a host pool whose matching set
has at least `N` distinct entities, every evaluation outcome (any sequence
of `Math.random()` draws in `[0,1)`) returns exactly `N` entities, each a
member of the matching pool, with no repeats — sampling without
replacement, in both variants. -/
theorem c7_random_sampling :
    ∀ (env : HostEnv) (rng : Nat → ℚ) (inst : SelectorInst)
      (pool : List EntityRec) (N : ℕ),
      (∀ j, 0 ≤ rng j ∧ rng j < 1) →
      inst.symbol = "@r" →
      inst.state.query.closest = some (N : Int) →
      0 < N →
      inst.state.query.scoreOptions = none →
      inst.state.query.volume = none →
      inst.state.hasItemFilters = [] →
      (∀ qq, env.getEntities qq = pool) →
      pool.Nodup →
      N ≤ pool.length →
      ((getEntitiesA env rng inst).1.length = N
        ∧ (∀ e ∈ (getEntitiesA env rng inst).1, e ∈ pool)
        ∧ (getEntitiesA env rng inst).1.Nodup)
      ∧ ((getEntitiesB env rng inst).1.length = N
        ∧ (∀ e ∈ (getEntitiesB env rng inst).1, e ∈ pool)
        ∧ (getEntitiesB env rng inst).1.Nodup) := by
  intro env rng inst pool N hr hsym hclosest hN hscore hvol hhif henv hnodup hle
  obtain ⟨sym, st, eloc, exec⟩ := inst
  simp only at hsym hclosest hscore hvol hhif
  subst hsym
  have hplen : pool.length > 0 := by omega
  have hscorepass : scoreFilterPassA env st.query pool = pool := by
    unfold scoreFilterPassA
    rw [hscore]
  have hjsor : jsOrInt st.query.closest 1 = (N : Int) := by
    rw [hclosest]
    show (if (N : Int) = 0 then 1 else (N : Int)) = (N : Int)
    rw [if_neg (by exact_mod_cast Nat.pos_iff_ne_zero.mp hN)]
  obtain ⟨hrsl, hrsm, hrsn⟩ := randomSample_spec rng hr N pool hnodup hle
  constructor
  · have hbase : basePhaseA env rng ⟨"@r", st, eloc, exec⟩
        = (randomSample rng (N : Int) pool, []) := by
      unfold basePhaseA
      simp only [henv, hscorepass, hjsor]
      rw [if_pos hplen]
    have hfst : (getEntitiesA env rng ⟨"@r", st, eloc, exec⟩).1
        = randomSample rng (N : Int) pool := by
      unfold getEntitiesA
      simp [hbase, hvol, hhif]
    rw [hfst]
    exact ⟨hrsl, hrsm, hrsn⟩
  · have hfst : (getEntitiesB env rng ⟨"@r", st, eloc, exec⟩).1
        = randomSample rng (N : Int) pool := by
      unfold getEntitiesB rSampleB
      simp [henv, hhif, hclosest, hplen, Int.natAbs_ofNat,
        max_eq_right (show (1 : Int) ≤ (N : Int) by exact_mod_cast hN)]
    rw [hfst]
    exact ⟨hrsl, hrsm, hrsn⟩

/-- Concrete three-entity matching pool for the C7 witness. -/
def samplePool : List EntityRec := [{ eid := 0 }, { eid := 1 }, { eid := 2 }]

/-- Concrete host whose pool query always returns `samplePool`. -/
def sampleEnv : HostEnv :=
  { getEntities := fun _ => samplePool,
    getObjective := fun _ => none,
    checkHasItem := fun _ _ => true }

/-- Concrete parsed `@r[c=2]` selector instance. -/
def sampleInst : SelectorInst :=
  { symbol := "@r", state := { query := { closest := some 2 } } }

/-- C7 witness: the sampling theorem applied to a concrete `@r[c=2]`
selector over a three-entity pool with the constant-zero random source. -/
theorem c7_random_sampling_witness :
    ((getEntitiesA sampleEnv (fun _ => 0) sampleInst).1.length = 2
      ∧ (∀ e ∈ (getEntitiesA sampleEnv (fun _ => 0) sampleInst).1, e ∈ samplePool)
      ∧ (getEntitiesA sampleEnv (fun _ => 0) sampleInst).1.Nodup)
    ∧ ((getEntitiesB sampleEnv (fun _ => 0) sampleInst).1.length = 2
      ∧ (∀ e ∈ (getEntitiesB sampleEnv (fun _ => 0) sampleInst).1, e ∈ samplePool)
      ∧ (getEntitiesB sampleEnv (fun _ => 0) sampleInst).1.Nodup) :=
  c7_random_sampling sampleEnv (fun _ => 0) sampleInst samplePool 2
    (fun _ => ⟨le_refl 0, by show (0 : ℚ) < 1; decide⟩) rfl rfl (by decide) rfl rfl rfl
    (fun _ => rfl) (by decide) (by decide)
